import Mathlib

/-!
Verification of the availability-resolution and streaming-aggregation
pipeline of the vinyl-destination repository.

Shallow embedding of:
- the sliding-window rate limiter (src/lib/rate-limit.ts),
- the two retrying HTTP clients: fetchWithRetry in the Discogs client
  (src/lib/discogs.ts) and the retry loop of spotifyFetch
  (src/lib/spotify.ts),
- the persistent vinyl-availability cache (src/lib/db.ts) and
  checkVinylAvailability (src/lib/discogs.ts),
- the streaming recommendation coordinator
  (src/app/api/recommendations/stream/route.ts).

JavaScript numbers holding timestamps and delays are modelled as Int,
counters as Nat.  Collaborator calls (fetch, database reads, the Spotify
and Discogs providers) are modelled as injected outcome functions, and
each await point of the coordinator is an explicit async boundary at
which a pending cancellation may be observed.
-/

namespace VinylDestination

/-- Model of JavaScript String.prototype.toLowerCase for the ASCII data
used by the cache keys (String.toLower on each character). -/
def jsToLowerCase (s : String) : String := String.mk (s.data.map Char.toLower)

/-! ## Sliding-window rate limiter (src/lib/rate-limit.ts) -/

structure RateLimitResult where
  allowed : Bool
  remaining : Nat
  resetMs : Int
deriving DecidableEq

/-- Constructor arguments of class RateLimiter.  The per-key mutable
window (Map key to number[]) is modelled by threading the stored
timestamp list of one key through check explicitly. -/
structure RateLimiter where
  maxRequests : Nat
  windowMs : Int
deriving DecidableEq

/-- timestamps.filter((t) => t > windowStart) where
windowStart = now - windowMs (rate-limit.ts lines 40-44). -/
def RateLimiter.pruneWindow (rl : RateLimiter) (now : Int) (stored : List Int) : List Int :=
  stored.filter (fun t => now - rl.windowMs < t)

/-- RateLimiter.check (rate-limit.ts lines 38-67) for one key: prune the
stored timestamps, block when the pruned count reaches maxRequests
(storing the pruned list back), otherwise append now and allow.
timestamps[0] on an empty list is modelled with default 0; the code
never constructs a limiter with maxRequests = 0, so the blocked branch
always sees a nonempty list. -/
def RateLimiter.check (rl : RateLimiter) (now : Int) (stored : List Int) :
    RateLimitResult × List Int :=
  let timestamps := rl.pruneWindow now stored
  if rl.maxRequests ≤ timestamps.length then
    let oldestInWindow := timestamps.headD 0
    (⟨false, 0, max (oldestInWindow + rl.windowMs - now) 0⟩, timestamps)
  else
    let timestamps2 := timestamps ++ [now]
    (⟨true, rl.maxRequests - timestamps2.length,
      timestamps2.headD 0 + rl.windowMs - now⟩, timestamps2)

/-- Run a sequence of check calls against one key, threading the stored
timestamp list, returning the results in order plus the final list. -/
def RateLimiter.checkSeq (rl : RateLimiter) (stored : List Int) :
    List Int → List RateLimitResult × List Int
  | [] => ([], stored)
  | now :: rest =>
    let step := rl.check now stored
    let tail := rl.checkSeq step.2 rest
    (step.1 :: tail.1, tail.2)

/-! ## Retrying HTTP clients (src/lib/discogs.ts, src/lib/spotify.ts) -/

/-- An HTTP response as the retry loops inspect it.  retryAfter is the
numeric value of the Retry-After header in seconds (none when the header
is absent or non-numeric; for the integer-valued headers the claims are
about, parseInt in fetchWithRetry and Number in spotifyFetch agree). -/
structure HttpResponse where
  status : Nat
  retryAfter : Option Int := none
  body : String := ""
deriving DecidableEq

/-- response.ok of the Fetch API: status in the range 200-299. -/
def HttpResponse.isOk (r : HttpResponse) : Bool :=
  200 ≤ r.status && r.status < 300

/-- Outcome of one fetch(url, init) invocation: a settled response, or a
network-level rejection (connection reset, DNS failure, timeout). -/
inductive FetchOutcome where
  | response (r : HttpResponse)
  | networkError (e : String)
deriving DecidableEq

/-- How a whole retrying call ends. -/
inductive FetchResult where
  | returned (r : HttpResponse)
  | transportError (e : String)
deriving DecidableEq

/-- Observable behaviour of a retrying call: how many fetch attempts
were issued, the delays slept between attempts (ms), and the result. -/
structure RetryTrace where
  calls : Nat
  delays : List Int
  result : FetchResult
deriving DecidableEq

/-- response.status === 429 || (response.status >= 500 && response.status < 600)
(discogs.ts fetchWithRetry). -/
def retryableStatus (s : Nat) : Bool := s == 429 || (500 ≤ s && s < 600)

/-- Delay computation of fetchWithRetry (discogs.ts lines 149-160):
exponential backoff, raised to the Retry-After hint only for 429. -/
def fetchWithRetryDelay (baseDelayMs : Int) (attempt : Nat) (r : HttpResponse) : Int :=
  let delayMs := baseDelayMs * 2 ^ attempt
  if r.status == 429 then
    match r.retryAfter with
    | some h => max delayMs (h * 1000)
    | none => delayMs
  else delayMs

/-- The loop body of fetchWithRetry (discogs.ts lines 141-172).
remaining = maxRetries - attempt, so remaining = 0 exactly when the
`attempt < maxRetries` guard of the code fails.  A fetch rejection is
not caught anywhere in fetchWithRetry, so it propagates at once. -/
def fetchWithRetryGo (fetchFn : Nat → FetchOutcome) (baseDelayMs : Int) :
    (attempt : Nat) → (remaining : Nat) → RetryTrace
  | attempt, 0 =>
    match fetchFn attempt with
    | .networkError e => ⟨1, [], .transportError e⟩
    | .response r => ⟨1, [], .returned r⟩
  | attempt, remaining + 1 =>
    match fetchFn attempt with
    | .networkError e => ⟨1, [], .transportError e⟩
    | .response r =>
      if retryableStatus r.status then
        let d := fetchWithRetryDelay baseDelayMs attempt r
        let rest := fetchWithRetryGo fetchFn baseDelayMs (attempt + 1) remaining
        ⟨rest.calls + 1, d :: rest.delays, rest.result⟩
      else ⟨1, [], .returned r⟩

/-- fetchWithRetry(url, init, options): the attempts loop starting at
attempt 0 with maxRetries attempts remaining. -/
def fetchWithRetry (fetchFn : Nat → FetchOutcome) (maxRetries : Nat)
    (baseDelayMs : Int) : RetryTrace :=
  fetchWithRetryGo fetchFn baseDelayMs 0 maxRetries

/-- Typed classification of how a Discogs API call fails. -/
inductive DiscogsError where
  | rateLimited
  | apiError (body : String)
  | transport (e : String)
deriving DecidableEq

/-- The classification discogsFetch applies to the response that
fetchWithRetry resolved with (discogs.ts lines 218-225): 429 throws the
rate-limit error, any other non-ok status throws the Discogs API error
with the response body, a fetch rejection propagates as is. -/
def discogsClassify (res : FetchResult) : Except DiscogsError HttpResponse :=
  match res with
  | .transportError e => .error (.transport e)
  | .returned r =>
    if r.status == 429 then .error .rateLimited
    else if !r.isOk then .error (.apiError r.body)
    else .ok r

/-- How a spotifyFetch call ends (spotify.ts lines 120-173). -/
inductive SpotifyResult where
  | ok (r : HttpResponse)
  | apiError (body : String)
  | transportError (e : String)
deriving DecidableEq

structure SpotifyTrace where
  calls : Nat
  delays : List Int
  result : SpotifyResult
deriving DecidableEq

/-- response.status === 429 || response.status >= 500 (spotify.ts line 134). -/
def spotifyRetryable (s : Nat) : Bool := s == 429 || 500 ≤ s

/-- Delay computation of spotifyFetch (spotify.ts lines 137-147): a
positive numeric Retry-After hint on a 429 replaces the exponential
delay outright. -/
def spotifyDelay (baseDelayMs : Int) (attempt : Nat) (r : HttpResponse) : Int :=
  let delayMs := baseDelayMs * 2 ^ attempt
  if r.status == 429 then
    match r.retryAfter with
    | some h => if 0 < h then h * 1000 else delayMs
    | none => delayMs
  else delayMs

/-- The retry loop of spotifyFetch (spotify.ts lines 121-169), with
remaining = maxRetries - attempt.  The catch branch retries network
errors with plain exponential backoff while attempts remain and rethrows
the original error unchanged when they are exhausted; a thrown Spotify
API error is rethrown immediately. -/
def spotifyFetchGo (fetchFn : Nat → FetchOutcome) (baseDelayMs : Int) :
    (attempt : Nat) → (remaining : Nat) → SpotifyTrace
  | attempt, 0 =>
    match fetchFn attempt with
    | .networkError e => ⟨1, [], .transportError e⟩
    | .response r =>
      if r.isOk then ⟨1, [], .ok r⟩
      else ⟨1, [], .apiError r.body⟩
  | attempt, remaining + 1 =>
    match fetchFn attempt with
    | .networkError _ =>
      let rest := spotifyFetchGo fetchFn baseDelayMs (attempt + 1) remaining
      ⟨rest.calls + 1, (baseDelayMs * 2 ^ attempt) :: rest.delays, rest.result⟩
    | .response r =>
      if r.isOk then ⟨1, [], .ok r⟩
      else if spotifyRetryable r.status then
        let d := spotifyDelay baseDelayMs attempt r
        let rest := spotifyFetchGo fetchFn baseDelayMs (attempt + 1) remaining
        ⟨rest.calls + 1, d :: rest.delays, rest.result⟩
      else ⟨1, [], .apiError r.body⟩

/-- spotifyFetch(accessToken, endpoint) with the injected per-attempt
fetch outcomes. -/
def spotifyFetch (fetchFn : Nat → FetchOutcome) (maxRetries : Nat)
    (baseDelayMs : Int) : SpotifyTrace :=
  spotifyFetchGo fetchFn baseDelayMs 0 maxRetries

/-! ## Persistent availability cache (src/lib/db.ts, src/lib/discogs.ts) -/

/-- CACHE_TTL_SECONDS = 7 * 24 * 60 * 60 (db.ts line 160). -/
def CACHE_TTL_SECONDS : Int := 7 * 24 * 60 * 60

/-- One row of the vinyl_cache table.  The INTEGER has_vinyl column is
modelled as Bool: setCachedVinylStatus stores hasVinyl ? 1 : 0 and
getCachedVinylStatus reads has_vinyl === 1, a faithful round trip. -/
structure VinylCacheRow where
  artist_name : String
  album_name : String
  has_vinyl : Bool
  discogs_url : Option String
  checked_at : Int
deriving DecidableEq

/-- The vinyl_cache table; the UNIQUE(artist_name, album_name)
constraint is maintained by the upsert below. -/
abbrev VinylCacheTable := List VinylCacheRow

structure CachedStatus where
  hasVinyl : Bool
  discogsUrl : Option String
deriving DecidableEq

/-- A row is live (returned by reads) for the key pair at time now:
matching lowercased names and checked_at newer than the TTL cutoff. -/
def freshRowFor (artistName albumName : String) (now : Int) (row : VinylCacheRow) : Bool :=
  row.artist_name == jsToLowerCase artistName &&
  row.album_name == jsToLowerCase albumName &&
  now - CACHE_TTL_SECONDS < row.checked_at

/-- getCachedVinylStatus (db.ts lines 171-192): select the row for the
lowercased pair with checked_at > now - TTL; now is in seconds. -/
def getCachedVinylStatus (artistName albumName : String) (now : Int)
    (table : VinylCacheTable) : Option CachedStatus :=
  match table.find? (freshRowFor artistName albumName now) with
  | some row => some ⟨row.has_vinyl, row.discogs_url⟩
  | none => none

/-- setCachedVinylStatus (db.ts lines 194-216): upsert the lowercased
pair, replacing any existing row for the same key; the discogsUrl
argument goes through `discogsUrl || null`, so an absent or empty url is
stored as NULL. -/
def setCachedVinylStatus (artistName albumName : String) (hasVinyl : Bool)
    (discogsUrl : Option String) (now : Int) (table : VinylCacheTable) :
    VinylCacheTable :=
  let keyArtist := jsToLowerCase artistName
  let keyAlbum := jsToLowerCase albumName
  let url := match discogsUrl with
    | some s => if s == "" then none else some s
    | none => none
  let others := table.filter
    (fun r => !(r.artist_name == keyArtist && r.album_name == keyAlbum))
  others ++ [⟨keyArtist, keyAlbum, hasVinyl, url, now⟩]

/-- A Discogs search result as used by the pipeline (discogs.ts
DiscogsSearchResult; the optional year is modelled with default "",
matching how `classic.year || ""` consumes it). -/
structure DiscogsSearchResult where
  id : Int
  title : String
  year : String := ""
  thumb : String := ""
  cover_image : String := ""
  uri : String
deriving DecidableEq

/-- The verdict checkVinylAvailability returns. -/
structure VinylAvailability where
  available : Bool
  discogsUrl : Option String
deriving DecidableEq

/-- checkVinylAvailability (discogs.ts lines 246-275).  The outcome of
the persistent-tier read and of the catalog search are injected as
Except values; writeFails injects a setCachedVinylStatus failure.  The
cache read sits before the try block, so a read failure propagates; the
search and the write sit inside it, so their failures are caught and
mapped to the negative verdict with nothing written. -/
def checkVinylAvailability (artist album : String)
    (readOutcome : Except String (Option CachedStatus))
    (searchOutcome : Except String (List DiscogsSearchResult))
    (writeFails : Bool) (now : Int) (table : VinylCacheTable) :
    Except String (VinylAvailability × VinylCacheTable) :=
  match readOutcome with
  | .error e => .error e
  | .ok (some cached) => .ok (⟨cached.hasVinyl, cached.discogsUrl⟩, table)
  | .ok none =>
    match searchOutcome with
    | .error _ => .ok (⟨false, none⟩, table)
    | .ok releases =>
      let available := !releases.isEmpty
      let discogsUrl := match releases.head? with
        | some r0 => some ("https://www.discogs.com" ++ r0.uri)
        | none => none
      if writeFails then .ok (⟨false, none⟩, table)
      else
        .ok (⟨available, discogsUrl⟩,
          setCachedVinylStatus artist album available discogsUrl now table)

/-- checkVinylAvailability with the cache read performed against the
table itself and a succeeding write: the non-injected composition. -/
def checkVinylAvailabilityRun (artist album : String)
    (searchOutcome : Except String (List DiscogsSearchResult)) (now : Int)
    (table : VinylCacheTable) : Except String (VinylAvailability × VinylCacheTable) :=
  checkVinylAvailability artist album
    (.ok (getCachedVinylStatus artist album now table)) searchOutcome false now table

/-! ## Streaming aggregation coordinator
(src/app/api/recommendations/stream/route.ts) -/

structure SpotifyArtist where
  id : String
  name : String
deriving DecidableEq

structure SpotifyImage where
  url : String
  height : Int
  width : Int
deriving DecidableEq

structure SpotifyAlbum where
  id : String
  name : String
  artists : List SpotifyArtist
  images : List SpotifyImage
  release_date : String
  album_type : String
deriving DecidableEq

inductive RecommendationSource where
  | top_tracks
  | saved_albums
  | recent_plays
  | long_term
  | collection_based
  | classic
deriving DecidableEq

structure ListeningStats where
  topTracksCount : Nat
  highestRank : Option Nat
  trackName : Option String
  recentlyPlayed : Bool
  timeRange : String
deriving DecidableEq

/-- The StreamedAlbum record emitted in a data frame (route.ts lines
32-41); listeningStats is present only when the stats getter considers
the album notable. -/
structure StreamedAlbum where
  id : String
  name : String
  artist : String
  imageUrl : String
  releaseDate : String
  source : RecommendationSource
  discogsUrl : Option String
  listeningStats : Option ListeningStats
deriving DecidableEq

/-- A frame on the SSE channel. -/
inductive StreamFrame where
  | album (a : StreamedAlbum)
  | done
  | errorFrame (msg : String)
deriving DecidableEq

/-- Observable actions of one coordinator run: availability-resolution
calls issued (checkVinylAvailability) and frames actually enqueued to
the client. -/
inductive StreamEvent where
  | resolve (artist album : String)
  | frame (f : StreamFrame)
deriving DecidableEq

/-- Everything the coordinator receives from its collaborators during
one request, plus the cancellation schedule.  sources are the four
already-shuffled per-source album batches (the shuffle uses
Math.random, so its output order is an input here); recommendations
holds, per returned track, its possibly-null album; cancelAt is the
async-boundary index from which a caller disconnect is observable;
enqueueOk says whether the n-th controller.enqueue succeeds. -/
structure StreamEnv where
  cancelAt : Option Nat
  enqueueOk : Nat → Bool
  checkVinyl : String → String → VinylAvailability
  actionedAlbumIds : List String
  statsGetter : String → Option ListeningStats
  sources : List (List SpotifyAlbum × RecommendationSource)
  collectionArtists : List String
  recommendations : Except String (List (Option SpotifyAlbum))
  classics : Except String (List DiscogsSearchResult)

/-- Mutable per-request state closed over by the stream callbacks:
the aborted flag, the async-boundary clock, the count of enqueue
attempts, seenAlbumIds and totalSent. -/
structure StreamState where
  aborted : Bool
  clock : Nat
  enq : Nat
  seenAlbumIds : List String
  totalSent : Nat
deriving DecidableEq

def initialStreamState : StreamState := ⟨false, 0, 0, [], 0⟩

/-- Has the caller disconnect become observable by async boundary
clock? -/
def cancelFired (cancelAt : Option Nat) (clock : Nat) : Bool :=
  match cancelAt with
  | some c => c ≤ clock
  | none => false

/-- One await boundary: the clock advances and a pending cancel()
callback (route.ts lines 330-332), which sets aborted = true, may run
while the handler is suspended.  Nothing ever resets the flag. -/
def tick (env : StreamEnv) (st : StreamState) : StreamState :=
  { st with clock := st.clock + 1,
            aborted := st.aborted || cancelFired env.cancelAt (st.clock + 1) }

/-- safeEnqueue (route.ts lines 58-65): controller.enqueue inside
try/catch; on failure (controller already closed) the exception is
swallowed and aborted is set. -/
def safeEnqueue (env : StreamEnv) (st : StreamState) (f : StreamFrame) :
    StreamState × List StreamEvent :=
  if env.enqueueOk st.enq then
    ({ st with enq := st.enq + 1 }, [.frame f])
  else
    ({ st with enq := st.enq + 1, aborted := true }, [])

/-- sendAlbum (route.ts lines 67-71): checks the abort flag before
enqueueing. -/
def sendAlbum (env : StreamEnv) (st : StreamState) (a : StreamedAlbum) :
    StreamState × List StreamEvent :=
  if st.aborted then (st, []) else safeEnqueue env st (.album a)

/-- sendDone (route.ts lines 73-81): checks the abort flag, enqueues the
terminal frame, then closes the controller (no observable event). -/
def sendDone (env : StreamEnv) (st : StreamState) :
    StreamState × List StreamEvent :=
  if st.aborted then (st, []) else safeEnqueue env st .done

/-- album.artists.map((a) => a.name).join(", ") (route.ts line 110). -/
def artistNameOf (album : SpotifyAlbum) : String :=
  String.intercalate ", " (album.artists.map (fun a => a.name))

/-- The StreamedAlbum record built for an available album (route.ts
lines 116-125). -/
def streamedOf (env : StreamEnv) (album : SpotifyAlbum)
    (source : RecommendationSource) : StreamedAlbum :=
  { id := album.id
    name := album.name
    artist := artistNameOf album
    imageUrl := ((album.images.head?).map (fun i => i.url)).getD ""
    releaseDate := album.release_date
    source := source
    discogsUrl := (env.checkVinyl (artistNameOf album) album.name).discogsUrl
    listeningStats := env.statsGetter album.id }

/-- processAlbum (route.ts lines 93-129): bail out when aborted, skip
actioned or seen or non-full-length albums, resolve availability (an
await boundary, during which a disconnect may be observed), and when
available mark the album seen and emit it.  Returns whether the album
counts against the cap. -/
def processAlbum (env : StreamEnv) (st : StreamState) (album : SpotifyAlbum)
    (source : RecommendationSource) : Bool × StreamState × List StreamEvent :=
  if st.aborted then (false, st, [])
  else if env.actionedAlbumIds.contains album.id ||
          st.seenAlbumIds.contains album.id then (false, st, [])
  else if album.album_type != "album" then (false, st, [])
  else
    let st1 := tick env st
    let result := env.checkVinyl (artistNameOf album) album.name
    if result.available then
      let st2 := { st1 with seenAlbumIds := album.id :: st1.seenAlbumIds }
      let sent := sendAlbum env st2 (streamedOf env album source)
      (true, sent.1, .resolve (artistNameOf album) album.name :: sent.2)
    else (false, st1, [.resolve (artistNameOf album) album.name])

/-- The maxAlbums cap (route.ts line 241). -/
def maxAlbums : Nat := 40

/-- The inner loop over one shuffled source batch (route.ts lines
248-252): before each candidate stop when aborted or at the cap;
totalSent counts candidates for which processAlbum returned true. -/
def runSourceAlbums (env : StreamEnv) (source : RecommendationSource) :
    StreamState → List SpotifyAlbum → StreamState × List StreamEvent
  | st, [] => (st, [])
  | st, album :: rest =>
    if st.aborted || maxAlbums ≤ st.totalSent then (st, [])
    else
      let step := processAlbum env st album source
      let st2 := if step.1
        then { step.2.1 with totalSent := step.2.1.totalSent + 1 }
        else step.2.1
      let tail := runSourceAlbums env source st2 rest
      (tail.1, step.2.2 ++ tail.2)

/-- The outer loop over the four source batches (route.ts lines
243-253). -/
def runPrimary (env : StreamEnv) :
    StreamState → List (List SpotifyAlbum × RecommendationSource) →
    StreamState × List StreamEvent
  | st, [] => (st, [])
  | st, (albums, source) :: rest =>
    if st.aborted then (st, [])
    else
      let step := runSourceAlbums env source st albums
      let tail := runPrimary env step.1 rest
      (tail.1, step.2 ++ tail.2)

/-- The loop over the recommended tracks of the collection-based stage
(route.ts lines 270-276); tracks with a null album are skipped. -/
def runCollectionTracks (env : StreamEnv) :
    StreamState → List (Option SpotifyAlbum) → StreamState × List StreamEvent
  | st, [] => (st, [])
  | st, trackAlbum :: rest =>
    if st.aborted || maxAlbums ≤ st.totalSent then (st, [])
    else
      match trackAlbum with
      | none => runCollectionTracks env st rest
      | some album =>
        let step := processAlbum env st album .collection_based
        let st2 := if step.1
          then { step.2.1 with totalSent := step.2.1.totalSent + 1 }
          else step.2.1
        let tail := runCollectionTracks env st2 rest
        (tail.1, step.2.2 ++ tail.2)

/-- The collection-based stage (route.ts lines 255-280): two awaited
database reads, then, when not aborted, artists exist and the cap is
not reached, an awaited getRecommendations call whose failure is caught
and logged (non-fatal), then the track loop. -/
def runCollection (env : StreamEnv) (st : StreamState) :
    StreamState × List StreamEvent :=
  let st1 := tick env (tick env st)
  if !st1.aborted && !env.collectionArtists.isEmpty &&
      st1.totalSent < maxAlbums then
    let st2 := tick env st1
    match env.recommendations with
    | .error _ => (st2, [])
    | .ok tracks => runCollectionTracks env st2 tracks
  else (st1, [])

/-- The synthesized stable identifier of a most-collected entry
(route.ts line 293). -/
def classicFakeId (classic : DiscogsSearchResult) : String :=
  "discogs_" ++ toString classic.id

/-- The StreamedAlbum record built for a most-collected entry from its
parsed "Artist - Title" display title (route.ts lines 289-305). -/
def classicStreamedOf (classic : DiscogsSearchResult) : StreamedAlbum :=
  let parts := classic.title.splitOn " - "
  { id := classicFakeId classic
    name := String.intercalate " - " (parts.drop 1)
    artist := parts.headD ""
    imageUrl := if classic.cover_image != "" then classic.cover_image
                else classic.thumb
    releaseDate := classic.year
    source := .classic
    discogsUrl := some ("https://www.discogs.com" ++ classic.uri)
    listeningStats := none }

/-- The loop over the Discogs most-collected entries (route.ts lines
286-309): parse "Artist - Title", synthesize the discogs_ id, and emit
directly without availability resolution when not excluded. -/
def runClassicsList (env : StreamEnv) :
    StreamState → List DiscogsSearchResult → StreamState × List StreamEvent
  | st, [] => (st, [])
  | st, classic :: rest =>
    if st.aborted || maxAlbums ≤ st.totalSent then (st, [])
    else
      if 2 ≤ (classic.title.splitOn " - ").length then
        if !env.actionedAlbumIds.contains (classicFakeId classic) &&
            !st.seenAlbumIds.contains (classicFakeId classic) then
          let st1 := { st with
            seenAlbumIds := classicFakeId classic :: st.seenAlbumIds }
          let sent := sendAlbum env st1 (classicStreamedOf classic)
          let st2 := { sent.1 with totalSent := sent.1.totalSent + 1 }
          let tail := runClassicsList env st2 rest
          (tail.1, sent.2 ++ tail.2)
        else runClassicsList env st rest
      else runClassicsList env st rest

/-- The classics stage (route.ts lines 283-313): when not aborted and
under the cap, an awaited getMostCollectedVinyl call whose failure is
caught and logged (non-fatal), then the classics loop. -/
def runClassics (env : StreamEnv) (st : StreamState) :
    StreamState × List StreamEvent :=
  if !st.aborted && st.totalSent < maxAlbums then
    let st1 := tick env st
    match env.classics with
    | .error _ => (st1, [])
    | .ok cs => runClassicsList env st1 cs
  else (st, [])

/-- The body of the stream from the primary loop onward, from an
arbitrary intermediate state: primary sources, collection-based stage,
classics stage, then sendDone. -/
def pipelineFrom (env : StreamEnv) (st : StreamState) :
    StreamState × List StreamEvent :=
  let p := runPrimary env st env.sources
  let c := runCollection env p.1
  let k := runClassics env c.1
  let d := sendDone env k.1
  (d.1, p.2 ++ c.2 ++ k.2 ++ d.2)

/-- A whole successful-setup run (route.ts lines 83-315): the awaited
cleanupExpiredSkips, getActiveUserAlbumIds and Promise.all source
fetches are three async boundaries before the loops start. -/
def streamRun (env : StreamEnv) : StreamState × List StreamEvent :=
  pipelineFrom env (tick env (tick env (tick env initialStreamState)))

/-- The frames among a list of events, in emission order. -/
def framesOf (events : List StreamEvent) : List StreamFrame :=
  events.filterMap (fun e => match e with
    | .frame f => some f
    | .resolve _ _ => none)

def isAlbumFrame : StreamFrame → Bool
  | .album _ => true
  | _ => false

/-- All albums of the primary source batches in processing order. -/
def primaryAlbums (env : StreamEnv) : List SpotifyAlbum :=
  (env.sources.map Prod.fst).flatten

/-- A primary candidate that the per-candidate filter accepts and whose
availability resolution succeeds: not previously actioned, a full-length
album, and available per the resolution oracle. -/
def eligibleAvailable (env : StreamEnv) (album : SpotifyAlbum) : Bool :=
  !env.actionedAlbumIds.contains album.id &&
  album.album_type == "album" &&
  (env.checkVinyl (artistNameOf album) album.name).available

/-! ## Concrete fixtures used by counterexamples and witnesses -/

/-- Attempt outcomes: a 503 carrying a numeric Retry-After hint of 10
seconds, then success. -/
def retryAfterOn5xxFetch : Nat → FetchOutcome := fun attempt =>
  if attempt == 0 then .response ⟨503, some 10, "oops"⟩
  else .response ⟨200, none, ""⟩

/-- Attempt outcomes: a 429 with Retry-After 1, then success. -/
def retryAfterOneFetch : Nat → FetchOutcome := fun attempt =>
  if attempt == 0 then .response ⟨429, some 1, ""⟩
  else .response ⟨200, none, ""⟩

/-- Attempt outcomes: every attempt fails at the network level. -/
def networkFailFetch : Nat → FetchOutcome := fun _ =>
  .networkError "ECONNRESET"

/-- Attempt outcomes: every attempt is rate limited. -/
def always429Fetch : Nat → FetchOutcome := fun _ =>
  .response ⟨429, none, "limit"⟩

/-- Attempt outcomes: every attempt is a 404. -/
def notFoundFetch : Nat → FetchOutcome := fun _ =>
  .response ⟨404, none, "nf"⟩

/-- An environment with no candidates at all, no disconnect, and a
healthy channel. -/
def envZero : StreamEnv where
  cancelAt := none
  enqueueOk := fun _ => true
  checkVinyl := fun _ _ => ⟨false, none⟩
  actionedAlbumIds := []
  statsGetter := fun _ => none
  sources := [([], .top_tracks), ([], .saved_albums),
              ([], .recent_plays), ([], .long_term)]
  collectionArtists := []
  recommendations := .ok []
  classics := .ok []

/-- An environment whose channel rejects every enqueue. -/
def envClosed : StreamEnv where
  cancelAt := none
  enqueueOk := fun _ => false
  checkVinyl := fun _ _ => ⟨false, none⟩
  actionedAlbumIds := []
  statsGetter := fun _ => none
  sources := []
  collectionArtists := []
  recommendations := .ok []
  classics := .ok []

/-- A state in which the abort flag is already set. -/
def abortedState : StreamState := ⟨true, 0, 0, [], 0⟩

/-- A one-row table whose entry for (pink floyd, animals) is long
expired at time 1000000. -/
def staleTable : VinylCacheTable := [⟨"pink floyd", "animals", true, none, 0⟩]

/-! ## Rate limiter theorems -/

theorem check_blocked_iff (rl : RateLimiter) (now : Int) (stored : List Int) :
    (rl.check now stored).1.allowed = false ↔
      rl.maxRequests ≤ (rl.pruneWindow now stored).length := by
  by_cases h : rl.maxRequests ≤ (rl.pruneWindow now stored).length <;>
    simp [RateLimiter.check, h]

theorem check_blocked_state (rl : RateLimiter) (now : Int) (stored : List Int)
    (h : rl.maxRequests ≤ (rl.pruneWindow now stored).length) :
    rl.check now stored =
      (⟨false, 0, max ((rl.pruneWindow now stored).headD 0 + rl.windowMs - now) 0⟩,
       rl.pruneWindow now stored) := by
  simp [RateLimiter.check, h]

theorem check_allowed_state (rl : RateLimiter) (now : Int) (stored : List Int)
    (h : ¬ rl.maxRequests ≤ (rl.pruneWindow now stored).length) :
    rl.check now stored =
      (⟨true, rl.maxRequests - ((rl.pruneWindow now stored).length + 1),
        (rl.pruneWindow now stored ++ [now]).headD 0 + rl.windowMs - now⟩,
       rl.pruneWindow now stored ++ [now]) := by
  simp [RateLimiter.check, h]

/-- Claim C9: check prunes the expired timestamps, blocks with
resetMs = time until the oldest surviving timestamp leaves the window
when the pruned count reaches maxRequests, otherwise records now,
returns the updated remaining count and measures resetMs from the
earliest surviving timestamp; the 3-requests-per-60s scenario behaves
exactly as stated (blocked fourth check at t=10000 with resetMs=50000,
allowed again at t=60001). -/
theorem rateLimiter_sliding_window :
    (((RateLimiter.mk 3 60000).checkSeq [] [0, 0, 0, 10000, 60001]).1 =
      [⟨true, 2, 60000⟩, ⟨true, 1, 60000⟩, ⟨true, 0, 60000⟩,
       ⟨false, 0, 50000⟩, ⟨true, 2, 60000⟩]) ∧
    (∀ (rl : RateLimiter) (now : Int) (stored : List Int),
      ((rl.check now stored).1.allowed = false ↔
        rl.maxRequests ≤ (rl.pruneWindow now stored).length)) ∧
    (∀ (rl : RateLimiter) (now : Int) (stored : List Int),
      (rl.check now stored).1.allowed = false →
        (rl.check now stored).1.resetMs =
          max ((rl.pruneWindow now stored).headD 0 + rl.windowMs - now) 0) ∧
    (∀ (rl : RateLimiter) (now : Int) (stored : List Int),
      (rl.check now stored).1.allowed = true →
        (rl.check now stored).2 = rl.pruneWindow now stored ++ [now] ∧
        (rl.check now stored).1.remaining =
          rl.maxRequests - ((rl.pruneWindow now stored).length + 1) ∧
        (rl.check now stored).1.resetMs =
          (rl.pruneWindow now stored ++ [now]).headD 0 + rl.windowMs - now) := by
  refine ⟨by decide, check_blocked_iff, ?_, ?_⟩
  · intro rl now stored h
    by_cases hb : rl.maxRequests ≤ (rl.pruneWindow now stored).length
    · rw [check_blocked_state rl now stored hb]
    · rw [check_allowed_state rl now stored hb] at h
      simp at h
  · intro rl now stored h
    by_cases hb : rl.maxRequests ≤ (rl.pruneWindow now stored).length
    · rw [check_blocked_state rl now stored hb] at h
      simp at h
    · rw [check_allowed_state rl now stored hb]
      exact ⟨rfl, rfl, rfl⟩

theorem rateLimiter_sliding_window_witness :
    ((RateLimiter.mk 1 10).check 6 [5]).1.allowed = false ∧
    ((RateLimiter.mk 1 10).check 6 [5]).1.resetMs =
      max (((RateLimiter.mk 1 10).pruneWindow 6 [5]).headD 0 + 10 - 6) 0 ∧
    ((RateLimiter.mk 1 10).check 0 []).1.allowed = true ∧
    ((RateLimiter.mk 1 10).check 0 []).2 =
      (RateLimiter.mk 1 10).pruneWindow 0 [] ++ [0] :=
  ⟨by decide,
   rateLimiter_sliding_window.2.2.1 _ _ _ (by decide),
   by decide,
   (rateLimiter_sliding_window.2.2.2 _ _ _ (by decide)).1⟩

/-- Claim C10: a blocked check stores back exactly the pruned prior
timestamps (nothing appended), the stored length never exceeds
maxRequests after a check, and a repeated request while blocked never
moves resetMs later. -/
theorem rateLimiter_blocked_frame :
    (∀ (rl : RateLimiter) (now : Int) (stored : List Int),
      (rl.check now stored).1.allowed = false →
        (rl.check now stored).2 = rl.pruneWindow now stored) ∧
    (∀ (rl : RateLimiter) (now : Int) (stored : List Int),
      stored.length ≤ rl.maxRequests →
        ((rl.check now stored).2).length ≤ rl.maxRequests) ∧
    (∀ (rl : RateLimiter) (now1 now2 : Int) (stored : List Int),
      stored.length ≤ rl.maxRequests → now1 ≤ now2 →
      (rl.check now1 stored).1.allowed = false →
      (rl.check now2 (rl.check now1 stored).2).1.allowed = false →
        (rl.check now2 (rl.check now1 stored).2).1.resetMs ≤
          (rl.check now1 stored).1.resetMs) := by
  refine ⟨?_, ?_, ?_⟩
  · intro rl now stored h
    rw [check_blocked_iff] at h
    rw [check_blocked_state rl now stored h]
  · intro rl now stored h
    by_cases hb : rl.maxRequests ≤ (rl.pruneWindow now stored).length
    · rw [check_blocked_state rl now stored hb]
      exact le_trans (List.length_filter_le _ _) h
    · rw [check_allowed_state rl now stored hb]
      simp only [List.length_append, List.length_cons, List.length_nil]
      omega
  · intro rl now1 now2 stored hlen hnow h1 h2
    rw [check_blocked_iff] at h1 h2
    have hb1 := check_blocked_state rl now1 stored h1
    have hL1 : (rl.check now1 stored).2 = rl.pruneWindow now1 stored := by
      rw [hb1]
    rw [hL1] at h2 ⊢
    have hlen1 : (rl.pruneWindow now1 stored).length ≤ rl.maxRequests :=
      le_trans (List.length_filter_le _ _) hlen
    have hlen2 : (rl.pruneWindow now2 (rl.pruneWindow now1 stored)).length ≤
        (rl.pruneWindow now1 stored).length :=
      List.length_filter_le _ _
    have heqlen : (rl.pruneWindow now2 (rl.pruneWindow now1 stored)).length =
        (rl.pruneWindow now1 stored).length := by omega
    have heq : rl.pruneWindow now2 (rl.pruneWindow now1 stored) =
        rl.pruneWindow now1 stored :=
      List.filter_eq_self.mpr (List.filter_length_eq_length.mp heqlen)
    rw [check_blocked_state rl now2 _ (heq ▸ h2), hb1]
    simp only [heq]
    omega

theorem rateLimiter_blocked_frame_witness :
    (((RateLimiter.mk 1 10).check 6 [5]).1.allowed = false ∧
      ((RateLimiter.mk 1 10).check 6 [5]).2 =
        (RateLimiter.mk 1 10).pruneWindow 6 [5]) ∧
    (((RateLimiter.mk 1 10).check 6 [5]).2.length ≤ 1) ∧
    (((RateLimiter.mk 1 10).check 7 ((RateLimiter.mk 1 10).check 6 [5]).2).1.resetMs ≤
      ((RateLimiter.mk 1 10).check 6 [5]).1.resetMs) :=
  ⟨⟨by decide, rateLimiter_blocked_frame.1 _ _ _ (by decide)⟩,
   rateLimiter_blocked_frame.2.1 (RateLimiter.mk 1 10) 6 [5] (by decide),
   rateLimiter_blocked_frame.2.2 (RateLimiter.mk 1 10) 6 7 [5]
     (by decide) (by decide) (by decide) (by decide)⟩

/-! ## Retrying client theorems -/

theorem fetchWithRetryGo_all_retryable (f : Nat → FetchOutcome) (base : Int) :
    ∀ (remaining attempt : Nat),
      (∀ i, attempt ≤ i → i ≤ attempt + remaining →
        ∃ r, f i = .response r ∧
          (r.status = 429 ∨ (500 ≤ r.status ∧ r.status < 600))) →
      (fetchWithRetryGo f base attempt remaining).calls = remaining + 1 ∧
      ∃ r, f (attempt + remaining) = .response r ∧
        (fetchWithRetryGo f base attempt remaining).result = .returned r := by
  intro remaining
  induction remaining with
  | zero =>
    intro attempt h
    obtain ⟨r, hr, _⟩ := h attempt le_rfl (by omega)
    simp [fetchWithRetryGo, hr]
  | succ n ih =>
    intro attempt h
    obtain ⟨r, hr, hst⟩ := h attempt le_rfl (by omega)
    have hretr : retryableStatus r.status = true := by
      simp [retryableStatus]
      omega
    have hrec := ih (attempt + 1) (fun i h1 h2 => h i (by omega) (by omega))
    have harith : attempt + 1 + n = attempt + (n + 1) := by omega
    rw [harith] at hrec
    simp only [fetchWithRetryGo, hr, hretr, if_true]
    have hc : (fetchWithRetryGo f base (attempt + 1) n).calls + 1 = n + 1 + 1 := by
      rw [hrec.1]
    exact ⟨hc, hrec.2⟩

theorem spotifyFetchGo_all_retryable (f : Nat → FetchOutcome) (base : Int) :
    ∀ (remaining attempt : Nat),
      (∀ i, attempt ≤ i → i ≤ attempt + remaining →
        ∃ r, f i = .response r ∧
          (r.status = 429 ∨ (500 ≤ r.status ∧ r.status < 600))) →
      (spotifyFetchGo f base attempt remaining).calls = remaining + 1 ∧
      ∃ r, f (attempt + remaining) = .response r ∧
        (spotifyFetchGo f base attempt remaining).result = .apiError r.body := by
  intro remaining
  induction remaining with
  | zero =>
    intro attempt h
    obtain ⟨r, hr, hst⟩ := h attempt le_rfl (by omega)
    have hok : r.isOk = false := by
      simp [HttpResponse.isOk]
      omega
    simp [spotifyFetchGo, hr, hok]
  | succ n ih =>
    intro attempt h
    obtain ⟨r, hr, hst⟩ := h attempt le_rfl (by omega)
    have hok : r.isOk = false := by
      simp [HttpResponse.isOk]
      omega
    have hretr : spotifyRetryable r.status = true := by
      simp [spotifyRetryable]
      omega
    have hrec := ih (attempt + 1) (fun i h1 h2 => h i (by omega) (by omega))
    have harith : attempt + 1 + n = attempt + (n + 1) := by omega
    rw [harith] at hrec
    simp only [spotifyFetchGo, hr, hok, Bool.false_eq_true, if_false, hretr, if_true]
    have hc : (spotifyFetchGo f base (attempt + 1) n).calls + 1 = n + 1 + 1 := by
      rw [hrec.1]
    exact ⟨hc, hrec.2⟩

theorem spotifyFetchGo_all_network (f : Nat → FetchOutcome) (base : Int) (e : String) :
    ∀ (remaining attempt : Nat),
      (∀ i, attempt ≤ i → i ≤ attempt + remaining → f i = .networkError e) →
      spotifyFetchGo f base attempt remaining =
        ⟨remaining + 1,
         (List.range remaining).map (fun j => base * 2 ^ (attempt + j)),
         .transportError e⟩ := by
  intro remaining
  induction remaining with
  | zero =>
    intro attempt h
    simp [spotifyFetchGo, h attempt le_rfl (by omega)]
  | succ n ih =>
    intro attempt h
    have hrec := ih (attempt + 1) (fun i h1 h2 => h i (by omega) (by omega))
    have hmap : (List.range (n + 1)).map (fun j => base * 2 ^ (attempt + j)) =
        (base * 2 ^ attempt) ::
          (List.range n).map (fun j => base * 2 ^ (attempt + 1 + j)) := by
      rw [List.range_succ_eq_map, List.map_cons, List.map_map]
      congr 1
      apply List.map_congr_left
      intro j _
      simp only [Function.comp_apply, Nat.succ_eq_add_one]
      have harith2 : attempt + (j + 1) = attempt + 1 + j := by omega
      rw [harith2]
    simp only [spotifyFetchGo, h attempt le_rfl (by omega), hrec, hmap]

/-- Claim C3: when every attempt is a 429 or 5xx response, both
retrying clients issue exactly 1 + maxRetries fetch calls and fail with
the classified error of the final response (429 is classified as rate
limited and 5xx as a Discogs API error by the Discogs layer; the
Spotify layer throws the Spotify API error); when the first attempt is
a non-429 4xx (401, 403, 404), exactly one call is issued and the call
fails immediately. -/
theorem retry_attempt_counts :
    (∀ (f : Nat → FetchOutcome) (maxRetries : Nat) (base : Int),
      (∀ i, i ≤ maxRetries →
        ∃ r, f i = .response r ∧
          (r.status = 429 ∨ (500 ≤ r.status ∧ r.status < 600))) →
      (fetchWithRetry f maxRetries base).calls = 1 + maxRetries ∧
      ∃ r, f maxRetries = .response r ∧
        (fetchWithRetry f maxRetries base).result = .returned r ∧
        (r.status = 429 →
          discogsClassify (fetchWithRetry f maxRetries base).result =
            .error .rateLimited) ∧
        (500 ≤ r.status →
          discogsClassify (fetchWithRetry f maxRetries base).result =
            .error (.apiError r.body))) ∧
    (∀ (f : Nat → FetchOutcome) (maxRetries : Nat) (base : Int),
      (∀ i, i ≤ maxRetries →
        ∃ r, f i = .response r ∧
          (r.status = 429 ∨ (500 ≤ r.status ∧ r.status < 600))) →
      (spotifyFetch f maxRetries base).calls = 1 + maxRetries ∧
      ∃ r, f maxRetries = .response r ∧
        (spotifyFetch f maxRetries base).result = .apiError r.body) ∧
    (∀ (f : Nat → FetchOutcome) (maxRetries : Nat) (base : Int) (r : HttpResponse),
      f 0 = .response r → 400 ≤ r.status → r.status < 500 → r.status ≠ 429 →
      (fetchWithRetry f maxRetries base).calls = 1 ∧
      discogsClassify (fetchWithRetry f maxRetries base).result =
        .error (.apiError r.body) ∧
      (spotifyFetch f maxRetries base).calls = 1 ∧
      (spotifyFetch f maxRetries base).result = .apiError r.body) := by
  refine ⟨?_, ?_, ?_⟩
  · intro f maxRetries base h
    have hall := fetchWithRetryGo_all_retryable f base maxRetries 0
      (fun i h1 h2 => h i (by omega))
    obtain ⟨r, hr, hres⟩ := hall.2
    rw [Nat.zero_add] at hr
    have hcalls : (fetchWithRetry f maxRetries base).calls = 1 + maxRetries := by
      unfold fetchWithRetry
      rw [hall.1]
      omega
    have hresult : (fetchWithRetry f maxRetries base).result = .returned r := hres
    refine ⟨hcalls, r, hr, hresult, ?_, ?_⟩
    · intro h429
      rw [hresult]
      simp [discogsClassify, h429]
    · intro h5xx
      rw [hresult]
      have hbeq : (r.status == 429) = false := by
        simp only [beq_eq_false_iff_ne, ne_eq]
        omega
      have hok : r.isOk = false := by
        simp [HttpResponse.isOk]
        omega
      simp [discogsClassify, hbeq, hok]
  · intro f maxRetries base h
    have hall := spotifyFetchGo_all_retryable f base maxRetries 0
      (fun i h1 h2 => h i (by omega))
    obtain ⟨r, hr, hres⟩ := hall.2
    rw [Nat.zero_add] at hr
    have hcalls : (spotifyFetch f maxRetries base).calls = 1 + maxRetries := by
      unfold spotifyFetch
      rw [hall.1]
      omega
    exact ⟨hcalls, r, hr, hres⟩
  · intro f maxRetries base r h0 h400 h500 hne
    have hretr : retryableStatus r.status = false := by
      simp only [retryableStatus, Bool.or_eq_false_iff, beq_eq_false_iff_ne, ne_eq,
        Bool.and_eq_false_iff, decide_eq_false_iff_not]
      omega
    have hok : r.isOk = false := by
      simp only [HttpResponse.isOk, Bool.and_eq_false_iff, decide_eq_false_iff_not]
      omega
    have hsretr : spotifyRetryable r.status = false := by
      simp only [spotifyRetryable, Bool.or_eq_false_iff, beq_eq_false_iff_ne, ne_eq,
        decide_eq_false_iff_not]
      omega
    have hbeq : (r.status == 429) = false := by simp [hne]
    have hfw : fetchWithRetry f maxRetries base = ⟨1, [], .returned r⟩ := by
      cases maxRetries with
      | zero => simp [fetchWithRetry, fetchWithRetryGo, h0]
      | succ n => simp [fetchWithRetry, fetchWithRetryGo, h0, hretr]
    have hsp : spotifyFetch f maxRetries base = ⟨1, [], .apiError r.body⟩ := by
      cases maxRetries with
      | zero => simp [spotifyFetch, spotifyFetchGo, h0, hok]
      | succ n => simp [spotifyFetch, spotifyFetchGo, h0, hok, hsretr]
    rw [hfw, hsp]
    refine ⟨rfl, ?_, rfl, rfl⟩
    simp [discogsClassify, hbeq, hok]

theorem retry_attempt_counts_witness :
    ((fetchWithRetry always429Fetch 2 1).calls = 1 + 2 ∧
      ∃ r, always429Fetch 2 = .response r ∧
        (fetchWithRetry always429Fetch 2 1).result = .returned r ∧
        (r.status = 429 →
          discogsClassify (fetchWithRetry always429Fetch 2 1).result =
            .error .rateLimited) ∧
        (500 ≤ r.status →
          discogsClassify (fetchWithRetry always429Fetch 2 1).result =
            .error (.apiError r.body))) ∧
    ((spotifyFetch always429Fetch 2 1).calls = 1 + 2 ∧
      ∃ r, always429Fetch 2 = .response r ∧
        (spotifyFetch always429Fetch 2 1).result = .apiError r.body) ∧
    ((fetchWithRetry notFoundFetch 2 1).calls = 1 ∧
      discogsClassify (fetchWithRetry notFoundFetch 2 1).result =
        .error (.apiError "nf") ∧
      (spotifyFetch notFoundFetch 2 1).calls = 1 ∧
      (spotifyFetch notFoundFetch 2 1).result = .apiError "nf") :=
  ⟨retry_attempt_counts.1 always429Fetch 2 1
      (fun _ _ => ⟨⟨429, none, "limit"⟩, rfl, Or.inl rfl⟩),
   retry_attempt_counts.2.1 always429Fetch 2 1
      (fun _ _ => ⟨⟨429, none, "limit"⟩, rfl, Or.inl rfl⟩),
   retry_attempt_counts.2.2 notFoundFetch 2 1 ⟨404, none, "nf"⟩ rfl
      (by decide) (by decide) (by decide)⟩

/-- Claim C4 counterexample: a 503 response carrying a numeric
Retry-After hint of 10 seconds, with base delay 50 ms and attempts
remaining, sleeps 50 ms (the plain exponential value), not
max(50, 10000) = 10000 ms as the claim states for every 429-or-5xx
retryable attempt with a hint: fetchWithRetry consults Retry-After only
on 429 responses. -/
theorem retryAfter_dominance_counterexample :
    (fetchWithRetry retryAfterOn5xxFetch 3 50).delays = [50] ∧
    ¬ ((50 : Int) = max (50 * 2 ^ 0) (10 * 1000)) := by
  exact ⟨by decide, by decide⟩

/-- Claim C4 amended: in fetchWithRetry the delay before the next
attempt is max(baseDelay * 2 ^ attemptIndex, hint * 1000) for 429
responses only, while a hint on a 5xx is ignored (plain exponential
delay); in spotifyFetch a positive numeric hint on a 429 replaces the
delay with hint * 1000 outright, even when the exponential value is
larger; with base delay 50 ms and Retry-After 1 on a 429 both clients
sleep 1000 ms. -/
theorem retryAfter_delay_rules :
    (∀ (base : Int) (attempt : Nat) (r : HttpResponse) (h : Int),
      r.status = 429 → r.retryAfter = some h →
        fetchWithRetryDelay base attempt r = max (base * 2 ^ attempt) (h * 1000)) ∧
    (∀ (base : Int) (attempt : Nat) (r : HttpResponse),
      r.status ≠ 429 →
        fetchWithRetryDelay base attempt r = base * 2 ^ attempt) ∧
    (∀ (base : Int) (attempt : Nat) (r : HttpResponse) (h : Int),
      r.status = 429 → r.retryAfter = some h → 0 < h →
        spotifyDelay base attempt r = h * 1000) ∧
    ((fetchWithRetry retryAfterOneFetch 3 50).delays = [1000] ∧
     (spotifyFetch retryAfterOneFetch 3 50).delays = [1000]) := by
  refine ⟨?_, ?_, ?_, by decide, by decide⟩
  · intro base attempt r h h429 hra
    simp [fetchWithRetryDelay, h429, hra]
  · intro base attempt r hne
    have hbeq : (r.status == 429) = false := by simp [hne]
    simp [fetchWithRetryDelay, hbeq]
  · intro base attempt r h h429 hra hpos
    simp [spotifyDelay, h429, hra, hpos]

theorem retryAfter_delay_rules_witness :
    (fetchWithRetryDelay 3 2 ⟨429, some 7, ""⟩ = max (3 * 2 ^ 2) (7 * 1000)) ∧
    (fetchWithRetryDelay 3 2 ⟨503, some 7, ""⟩ = 3 * 2 ^ 2) ∧
    (spotifyDelay 3 2 ⟨429, some 7, ""⟩ = 7 * 1000) :=
  ⟨retryAfter_delay_rules.1 3 2 ⟨429, some 7, ""⟩ 7 rfl rfl,
   retryAfter_delay_rules.2.1 3 2 ⟨503, some 7, ""⟩ (by decide),
   retryAfter_delay_rules.2.2.1 3 2 ⟨429, some 7, ""⟩ 7 rfl rfl (by decide)⟩

/-- Claim C5 counterexample: when the first attempt fails at the
network level, fetchWithRetry makes exactly one attempt and propagates
the transport error, instead of retrying under the backoff schedule
while attempts remain (the claim predicts 1 + maxRetries = 4 attempts
for a persistent network failure with maxRetries = 3). -/
theorem network_retry_counterexample :
    (fetchWithRetry networkFailFetch 3 1000).calls = 1 ∧
    (fetchWithRetry networkFailFetch 3 1000).result =
      .transportError "ECONNRESET" ∧
    (fetchWithRetry networkFailFetch 3 1000).calls ≠ 1 + 3 := by
  refine ⟨by decide, by decide, by decide⟩

/-- Claim C5 amended: spotifyFetch retries network-level failures under
the exponential-backoff schedule and, once attempts are exhausted,
propagates the underlying transport error unchanged; fetchWithRetry
does not catch network-level failures at all, so the transport error
propagates unchanged immediately after the single failing attempt,
without any retry. -/
theorem network_failure_behavior :
    (∀ (f : Nat → FetchOutcome) (maxRetries : Nat) (base : Int) (e : String),
      (∀ i, i ≤ maxRetries → f i = .networkError e) →
        spotifyFetch f maxRetries base =
          ⟨1 + maxRetries,
           (List.range maxRetries).map (fun j => base * 2 ^ j),
           .transportError e⟩) ∧
    (∀ (f : Nat → FetchOutcome) (maxRetries : Nat) (base : Int) (e : String),
      f 0 = .networkError e →
        fetchWithRetry f maxRetries base = ⟨1, [], .transportError e⟩) := by
  constructor
  · intro f maxRetries base e h
    rw [spotifyFetch, spotifyFetchGo_all_network f base e maxRetries 0
      (fun i h1 h2 => h i (by omega))]
    have hmap : (List.range maxRetries).map (fun j => base * 2 ^ (0 + j)) =
        (List.range maxRetries).map (fun j => base * 2 ^ j) := by
      apply List.map_congr_left
      intro j _
      rw [Nat.zero_add]
    rw [hmap]
    congr 1
    omega
  · intro f maxRetries base e h
    cases maxRetries with
    | zero => simp [fetchWithRetry, fetchWithRetryGo, h]
    | succ n => simp [fetchWithRetry, fetchWithRetryGo, h]

theorem network_failure_behavior_witness :
    (spotifyFetch networkFailFetch 2 5 =
      ⟨1 + 2, (List.range 2).map (fun j => (5 : Int) * 2 ^ j),
       .transportError "ECONNRESET"⟩) ∧
    (fetchWithRetry networkFailFetch 2 5 = ⟨1, [], .transportError "ECONNRESET"⟩) :=
  ⟨network_failure_behavior.1 networkFailFetch 2 5 "ECONNRESET" (fun _ _ => rfl),
   network_failure_behavior.2 networkFailFetch 2 5 "ECONNRESET" rfl⟩

/-! ## Availability cache theorems -/

/-- Claim C6: for a pair with no live persistent-tier row (in the data
model, TTL-expired entries are destroyed verdicts), a throwing catalog
search makes availability resolution return available = false and
discogsUrl = null without throwing, the table is unchanged, and the
tier has no live row for the pair afterwards: the negative verdict is
not written. -/
theorem search_failure_not_poisoning :
    ∀ (artist album : String) (now : Int) (table : VinylCacheTable) (e : String),
      (∀ row ∈ table, freshRowFor artist album now row = false) →
        checkVinylAvailabilityRun artist album (.error e) now table =
          .ok (⟨false, none⟩, table) ∧
        (∀ row ∈ table, freshRowFor artist album now row = false) := by
  intro artist album now table e h
  have hread : getCachedVinylStatus artist album now table = none := by
    unfold getCachedVinylStatus
    rw [List.find?_eq_none.mpr (fun x hx => by simp [h x hx])]
  refine ⟨?_, h⟩
  unfold checkVinylAvailabilityRun
  rw [hread]
  rfl

theorem search_failure_not_poisoning_witness :
    (∀ row ∈ staleTable, freshRowFor "Pink Floyd" "Animals" 1000000 row = false) ∧
    (checkVinylAvailabilityRun "Pink Floyd" "Animals" (.error "network down")
        1000000 staleTable = .ok (⟨false, none⟩, staleTable) ∧
      (∀ row ∈ staleTable, freshRowFor "Pink Floyd" "Animals" 1000000 row = false)) :=
  ⟨by decide,
   search_failure_not_poisoning "Pink Floyd" "Animals" 1000000 staleTable
     "network down" (by decide)⟩

/-- Claim C7 counterexample: a failure of the persistent-tier read that
precedes the catalog search is not caught inside checkVinylAvailability
(the read sits before the try block), so it propagates to the caller
instead of mapping to the available = false verdict. -/
theorem cache_read_error_counterexample :
    checkVinylAvailability "Pink Floyd" "The Wall" (.error "db down") (.ok [])
        false 0 [] = .error "db down" ∧
    ∀ out, checkVinylAvailability "Pink Floyd" "The Wall" (.error "db down")
        (.ok []) false 0 [] ≠ .ok out := by
  refine ⟨rfl, ?_⟩
  intro out h
  simp [checkVinylAvailability] at h

/-- Claim C7 amended: failures raised by the catalog search or by the
persistent-tier write during availability resolution are caught inside
checkVinylAvailability and mapped to the verdict available = false,
discogsUrl = null with the tier unchanged; a failure of the
persistent-tier read performed before the catalog search is not caught
and propagates out of checkVinylAvailability to the caller. -/
theorem cache_error_handling :
    (∀ (artist album e : String) (w : Bool) (now : Int) (table : VinylCacheTable),
      checkVinylAvailability artist album (.ok none) (.error e) w now table =
        .ok (⟨false, none⟩, table)) ∧
    (∀ (artist album : String) (rs : List DiscogsSearchResult) (now : Int)
        (table : VinylCacheTable),
      checkVinylAvailability artist album (.ok none) (.ok rs) true now table =
        .ok (⟨false, none⟩, table)) ∧
    (∀ (artist album e : String) (s : Except String (List DiscogsSearchResult))
        (w : Bool) (now : Int) (table : VinylCacheTable),
      checkVinylAvailability artist album (.error e) s w now table = .error e) :=
  ⟨fun _ _ _ _ _ _ => rfl, fun _ _ _ _ _ => rfl, fun _ _ _ _ _ _ _ => rfl⟩

/-- Claim C8 counterexample: the cache key is lowercased but never
trimmed; the pairs (Pink Floyd + trailing space, The Wall) and
(Pink Floyd, The Wall) are equal after lowercasing and trimming, yet a
write under the first is invisible to a read under the second, so the
two pairs do not address a single stored entry. -/
theorem cache_key_trim_counterexample :
    getCachedVinylStatus "Pink Floyd" "The Wall" 100
        (setCachedVinylStatus "Pink Floyd " "The Wall" true
          (some "https://www.discogs.com/release/1") 100 []) = none ∧
    getCachedVinylStatus "Pink Floyd " "The Wall" 100
        (setCachedVinylStatus "Pink Floyd " "The Wall" true
          (some "https://www.discogs.com/release/1") 100 []) =
      some ⟨true, some "https://www.discogs.com/release/1"⟩ :=
  ⟨by decide, by decide⟩

/-- Claim C8 amended: two pairs equal after lowercasing alone (no
trimming happens) address the same stored entry for both reads and
writes; pairs differing only in surrounding whitespace address
different keys. -/
theorem cache_key_lowercase_only :
    ∀ (a1 b1 a2 b2 : String) (now : Int) (table : VinylCacheTable)
      (v : Bool) (u : Option String),
      jsToLowerCase a1 = jsToLowerCase a2 →
      jsToLowerCase b1 = jsToLowerCase b2 →
        getCachedVinylStatus a1 b1 now table =
          getCachedVinylStatus a2 b2 now table ∧
        setCachedVinylStatus a1 b1 v u now table =
          setCachedVinylStatus a2 b2 v u now table := by
  intro a1 b1 a2 b2 now table v u h1 h2
  have hfr : freshRowFor a1 b1 now = freshRowFor a2 b2 now := by
    funext row
    simp only [freshRowFor, h1, h2]
  constructor
  · simp only [getCachedVinylStatus, hfr]
  · simp only [setCachedVinylStatus, h1, h2]

theorem cache_key_lowercase_only_witness :
    jsToLowerCase "Pink Floyd" = jsToLowerCase "pink floyd" ∧
    jsToLowerCase "The Wall" = jsToLowerCase "the wall" ∧
    (getCachedVinylStatus "Pink Floyd" "The Wall" 7 [] =
        getCachedVinylStatus "pink floyd" "the wall" 7 [] ∧
      setCachedVinylStatus "Pink Floyd" "The Wall" true none 7 [] =
        setCachedVinylStatus "pink floyd" "the wall" true none 7 []) :=
  ⟨by decide, by decide,
   cache_key_lowercase_only "Pink Floyd" "The Wall" "pink floyd" "the wall"
     7 [] true none (by decide) (by decide)⟩

/-! ## Streaming coordinator: abort semantics -/

theorem contains_true_iff (l : List String) (x : String) :
    l.contains x = true ↔ x ∈ l := by
  simp

theorem tick_aborted_true (env : StreamEnv) (st : StreamState)
    (h : st.aborted = true) : (tick env st).aborted = true := by
  simp [tick, h]

theorem runSourceAlbums_of_aborted (env : StreamEnv) (source : RecommendationSource)
    (albums : List SpotifyAlbum) (st : StreamState) (h : st.aborted = true) :
    runSourceAlbums env source st albums = (st, []) := by
  cases albums with
  | nil => rfl
  | cons a rest => simp [runSourceAlbums, h]

theorem runPrimary_of_aborted (env : StreamEnv)
    (sources : List (List SpotifyAlbum × RecommendationSource)) (st : StreamState)
    (h : st.aborted = true) : runPrimary env st sources = (st, []) := by
  cases sources with
  | nil => rfl
  | cons s rest =>
    obtain ⟨albums, source⟩ := s
    simp [runPrimary, h]

theorem runCollection_of_aborted (env : StreamEnv) (st : StreamState)
    (h : st.aborted = true) :
    runCollection env st = (tick env (tick env st), []) := by
  have h1 : (tick env (tick env st)).aborted = true :=
    tick_aborted_true _ _ (tick_aborted_true _ _ h)
  simp [runCollection, h1]

theorem runClassics_of_aborted (env : StreamEnv) (st : StreamState)
    (h : st.aborted = true) : runClassics env st = (st, []) := by
  simp [runClassics, h]

theorem sendDone_of_aborted (env : StreamEnv) (st : StreamState)
    (h : st.aborted = true) : sendDone env st = (st, []) := by
  simp [sendDone, h]

/-- Claim C2: once the abort flag is set, the remainder of the pipeline
issues no availability-resolution call and enqueues no frame (its event
trace is empty) and the flag stays set; and an enqueue attempt against
a closed channel is swallowed by safeEnqueue, which merely sets the
abort flag and emits nothing instead of propagating the failure. -/
theorem stream_abort_stops_work :
    (∀ (env : StreamEnv) (st : StreamState), st.aborted = true →
      (pipelineFrom env st).2 = [] ∧ (pipelineFrom env st).1.aborted = true) ∧
    (∀ (env : StreamEnv) (st : StreamState) (f : StreamFrame),
      env.enqueueOk st.enq = false →
        safeEnqueue env st f =
          ({ st with enq := st.enq + 1, aborted := true }, [])) := by
  constructor
  · intro env st h
    have h2 : (tick env (tick env st)).aborted = true :=
      tick_aborted_true _ _ (tick_aborted_true _ _ h)
    simp only [pipelineFrom, runPrimary_of_aborted env env.sources st h,
      runCollection_of_aborted env st h, runClassics_of_aborted env _ h2,
      sendDone_of_aborted env _ h2, List.append_nil, List.nil_append]
    exact ⟨trivial, h2⟩
  · intro env st f h
    simp [safeEnqueue, h]

theorem stream_abort_stops_work_witness :
    (abortedState.aborted = true ∧
      (pipelineFrom envClosed abortedState).2 = [] ∧
      (pipelineFrom envClosed abortedState).1.aborted = true) ∧
    (envClosed.enqueueOk abortedState.enq = false ∧
      safeEnqueue envClosed abortedState .done =
        ({ abortedState with enq := abortedState.enq + 1, aborted := true }, [])) :=
  ⟨⟨rfl, (stream_abort_stops_work.1 envClosed abortedState rfl).1,
    (stream_abort_stops_work.1 envClosed abortedState rfl).2⟩,
   ⟨rfl, stream_abort_stops_work.2 envClosed abortedState .done rfl⟩⟩

/-! ## Streaming coordinator: no-abort runs -/

theorem framesOf_append (l1 l2 : List StreamEvent) :
    framesOf (l1 ++ l2) = framesOf l1 ++ framesOf l2 := by
  simp [framesOf]

theorem tick_noabort (env : StreamEnv) (st : StreamState)
    (hc : env.cancelAt = none) (ha : st.aborted = false) :
    tick env st = { st with aborted := false, clock := st.clock + 1 } := by
  simp [tick, cancelFired, hc, ha]

theorem processAlbum_noabort (env : StreamEnv) (st : StreamState)
    (album : SpotifyAlbum) (source : RecommendationSource)
    (hc : env.cancelAt = none) (he : ∀ n, env.enqueueOk n = true)
    (ha : st.aborted = false) :
    (processAlbum env st album source).2.1.aborted = false ∧
    (processAlbum env st album source).2.1.totalSent = st.totalSent ∧
    ((framesOf (processAlbum env st album source).2.2).length =
      if (processAlbum env st album source).1 then 1 else 0) ∧
    (∀ f ∈ framesOf (processAlbum env st album source).2.2, isAlbumFrame f = true) ∧
    (∀ x, (processAlbum env st album source).2.1.seenAlbumIds.contains x = true →
      st.seenAlbumIds.contains x = true ∨ x = album.id) ∧
    (st.seenAlbumIds.contains album.id = false →
      (processAlbum env st album source).1 = eligibleAvailable env album) ∧
    ((processAlbum env st album source).1 = false →
      (processAlbum env st album source).2.1.seenAlbumIds = st.seenAlbumIds) ∧
    ((processAlbum env st album source).1 = true →
      (processAlbum env st album source).2.1.seenAlbumIds =
        album.id :: st.seenAlbumIds) := by
  by_cases h1a : album.id ∈ env.actionedAlbumIds
  · have hP : processAlbum env st album source = (false, st, []) := by
      simp [processAlbum, ha, h1a]
    rw [hP]
    refine ⟨ha, rfl, by simp [framesOf], by simp [framesOf],
      fun x hx => Or.inl hx, ?_, fun _ => rfl, fun hcon => Bool.noConfusion hcon⟩
    intro _
    simp [eligibleAvailable, h1a]
  · by_cases h1s : album.id ∈ st.seenAlbumIds
    · have hP : processAlbum env st album source = (false, st, []) := by
        simp [processAlbum, ha, h1s]
      rw [hP]
      refine ⟨ha, rfl, by simp [framesOf], by simp [framesOf],
        fun x hx => Or.inl hx, ?_, fun _ => rfl, fun hcon => Bool.noConfusion hcon⟩
      intro hseen
      rw [(contains_true_iff _ _).mpr h1s] at hseen
      exact Bool.noConfusion hseen
    · by_cases h2 : album.album_type = "album"
      · by_cases h3 : (env.checkVinyl (artistNameOf album) album.name).available = true
        · have hP : processAlbum env st album source =
              (true,
               ⟨false, st.clock + 1, st.enq + 1, album.id :: st.seenAlbumIds,
                st.totalSent⟩,
               [.resolve (artistNameOf album) album.name,
                .frame (.album (streamedOf env album source))]) := by
            simp [processAlbum, ha, h1a, h1s, h2, h3, sendAlbum, safeEnqueue,
              tick, cancelFired, hc, he]
          rw [hP]
          refine ⟨rfl, rfl, by simp [framesOf, isAlbumFrame],
            by simp [framesOf, isAlbumFrame], ?_, ?_,
            fun hcon => Bool.noConfusion hcon, fun _ => rfl⟩
          · intro x hx
            rcases List.mem_cons.mp ((contains_true_iff _ _).mp hx) with h | h
            · exact Or.inr h
            · exact Or.inl ((contains_true_iff _ _).mpr h)
          · intro _
            simp [eligibleAvailable, h1a, h2, h3]
        · have h3f : (env.checkVinyl (artistNameOf album) album.name).available =
              false := by
            simpa using h3
          have hP : processAlbum env st album source =
              (false, { st with clock := st.clock + 1 },
               [.resolve (artistNameOf album) album.name]) := by
            simp [processAlbum, ha, h1a, h1s, h2, h3f, tick, cancelFired, hc]
          rw [hP]
          refine ⟨ha, rfl, by simp [framesOf], by simp [framesOf],
            fun x hx => Or.inl hx, ?_, fun _ => rfl,
            fun hcon => Bool.noConfusion hcon⟩
          intro _
          simp [eligibleAvailable, h1a, h2, h3f]
      · have hP : processAlbum env st album source = (false, st, []) := by
          simp [processAlbum, ha, h1a, h1s, h2]
        rw [hP]
        refine ⟨ha, rfl, by simp [framesOf], by simp [framesOf],
          fun x hx => Or.inl hx, ?_, fun _ => rfl,
          fun hcon => Bool.noConfusion hcon⟩
        intro _
        simp [eligibleAvailable, h2]

theorem contains_false_of_not_mem (l : List String) (x : String) (h : x ∉ l) :
    l.contains x = false := by
  cases hb : l.contains x
  · rfl
  · exact absurd ((contains_true_iff _ _).mp hb) h

theorem runSourceAlbums_spec (env : StreamEnv) (source : RecommendationSource)
    (hc : env.cancelAt = none) (he : ∀ n, env.enqueueOk n = true) :
    ∀ (albums : List SpotifyAlbum) (st : StreamState),
      st.aborted = false → st.totalSent ≤ maxAlbums →
      (runSourceAlbums env source st albums).1.aborted = false ∧
      st.totalSent ≤ (runSourceAlbums env source st albums).1.totalSent ∧
      (runSourceAlbums env source st albums).1.totalSent ≤ maxAlbums ∧
      (framesOf (runSourceAlbums env source st albums).2).length =
        (runSourceAlbums env source st albums).1.totalSent - st.totalSent ∧
      (∀ f ∈ framesOf (runSourceAlbums env source st albums).2,
        isAlbumFrame f = true) ∧
      (∀ x, (runSourceAlbums env source st albums).1.seenAlbumIds.contains x = true →
        st.seenAlbumIds.contains x = true ∨
        (albums.map SpotifyAlbum.id).contains x = true) := by
  intro albums
  induction albums with
  | nil =>
    intro st ha hle
    exact ⟨ha, le_rfl, hle, by simp [runSourceAlbums, framesOf],
      by simp [runSourceAlbums, framesOf], fun x hx => Or.inl hx⟩
  | cons a rest ih =>
    intro st ha hle
    by_cases hcap : maxAlbums ≤ st.totalSent
    · have hR : runSourceAlbums env source st (a :: rest) = (st, []) := by
        simp [runSourceAlbums, hcap]
      rw [hR]
      exact ⟨ha, le_rfl, hle, by simp [framesOf], by simp [framesOf],
        fun x hx => Or.inl hx⟩
    · obtain ⟨hPa, hPt, hPfl, hPfa, hPseen, hPsent, hPsf, hPst⟩ :=
        processAlbum_noabort env st a source hc he ha
      rcases hps : processAlbum env st a source with ⟨sent, stP, ev⟩
      rw [hps] at hPa hPt hPfl hPfa hPseen hPsent hPsf hPst
      simp only at hPa hPt hPfl hPfa hPseen hPsent hPsf hPst
      cases sent with
      | true =>
        have hseq : stP.seenAlbumIds = a.id :: st.seenAlbumIds := hPst rfl
        have hst2le : ({ stP with totalSent := stP.totalSent + 1 } :
            StreamState).totalSent ≤ maxAlbums := by
          simp only [hPt]
          omega
        obtain ⟨iha, ihm, ihc, ihl, ihf, ihs⟩ :=
          ih { stP with totalSent := stP.totalSent + 1 } hPa hst2le
        have h2t : ({ stP with totalSent := stP.totalSent + 1 } :
            StreamState).totalSent = st.totalSent + 1 := by
          simp only [hPt]
        rw [h2t] at ihm ihl
        have hR : runSourceAlbums env source st (a :: rest) =
            ((runSourceAlbums env source
                { stP with totalSent := stP.totalSent + 1 } rest).1,
             ev ++ (runSourceAlbums env source
                { stP with totalSent := stP.totalSent + 1 } rest).2) := by
          simp [runSourceAlbums, ha, hcap, hps]
        rw [hR]
        dsimp only
        have hevl : (framesOf ev).length = 1 := by simpa using hPfl
        refine ⟨iha, by omega, ihc, ?_, ?_, ?_⟩
        · rw [framesOf_append, List.length_append, ihl, hevl]
          omega
        · intro f hf
          rw [framesOf_append] at hf
          rcases List.mem_append.mp hf with h | h
          · exact hPfa f h
          · exact ihf f h
        · intro x hx
          rcases ihs x hx with h | h
          · have hsp : ({ stP with totalSent := stP.totalSent + 1 } :
                StreamState).seenAlbumIds = a.id :: st.seenAlbumIds := hseq
            rw [hsp] at h
            rcases List.mem_cons.mp ((contains_true_iff _ _).mp h) with h2 | h2
            · exact Or.inr ((contains_true_iff _ _).mpr (by simp [h2]))
            · exact Or.inl ((contains_true_iff _ _).mpr h2)
          · refine Or.inr ((contains_true_iff _ _).mpr ?_)
            have hm := (contains_true_iff _ _).mp h
            simp only [List.map_cons, List.mem_cons]
            exact Or.inr hm
      | false =>
        have hseq : stP.seenAlbumIds = st.seenAlbumIds := hPsf rfl
        obtain ⟨iha, ihm, ihc, ihl, ihf, ihs⟩ := ih stP hPa (by omega)
        have hR : runSourceAlbums env source st (a :: rest) =
            ((runSourceAlbums env source stP rest).1,
             ev ++ (runSourceAlbums env source stP rest).2) := by
          simp [runSourceAlbums, ha, hcap, hps]
        rw [hR]
        dsimp only
        have hevl : (framesOf ev).length = 0 := by simpa using hPfl
        refine ⟨iha, by omega, ihc, ?_, ?_, ?_⟩
        · rw [framesOf_append, List.length_append, ihl, hevl]
          omega
        · intro f hf
          rw [framesOf_append] at hf
          rcases List.mem_append.mp hf with h | h
          · exact hPfa f h
          · exact ihf f h
        · intro x hx
          rcases ihs x hx with h | h
          · rw [hseq] at h
            exact Or.inl h
          · refine Or.inr ((contains_true_iff _ _).mpr ?_)
            have hm := (contains_true_iff _ _).mp h
            simp only [List.map_cons, List.mem_cons]
            exact Or.inr hm

theorem runPrimary_spec (env : StreamEnv)
    (hc : env.cancelAt = none) (he : ∀ n, env.enqueueOk n = true) :
    ∀ (sources : List (List SpotifyAlbum × RecommendationSource)) (st : StreamState),
      st.aborted = false → st.totalSent ≤ maxAlbums →
      (runPrimary env st sources).1.aborted = false ∧
      st.totalSent ≤ (runPrimary env st sources).1.totalSent ∧
      (runPrimary env st sources).1.totalSent ≤ maxAlbums ∧
      (framesOf (runPrimary env st sources).2).length =
        (runPrimary env st sources).1.totalSent - st.totalSent ∧
      (∀ f ∈ framesOf (runPrimary env st sources).2, isAlbumFrame f = true) ∧
      (∀ x, (runPrimary env st sources).1.seenAlbumIds.contains x = true →
        st.seenAlbumIds.contains x = true ∨
        (((sources.map Prod.fst).flatten).map SpotifyAlbum.id).contains x = true) := by
  intro sources
  induction sources with
  | nil =>
    intro st ha hle
    exact ⟨ha, le_rfl, hle, by simp [runPrimary, framesOf],
      by simp [runPrimary, framesOf], fun x hx => Or.inl hx⟩
  | cons s rest ih =>
    obtain ⟨albums, source⟩ := s
    intro st ha hle
    obtain ⟨sa, sm, sc, sl, sf, ss⟩ :=
      runSourceAlbums_spec env source hc he albums st ha hle
    obtain ⟨iha, ihm, ihc, ihl, ihf, ihs⟩ :=
      ih (runSourceAlbums env source st albums).1 sa sc
    have hR : runPrimary env st ((albums, source) :: rest) =
        ((runPrimary env (runSourceAlbums env source st albums).1 rest).1,
         (runSourceAlbums env source st albums).2 ++
           (runPrimary env (runSourceAlbums env source st albums).1 rest).2) := by
      simp [runPrimary, ha]
    rw [hR]
    dsimp only
    refine ⟨iha, by omega, ihc, ?_, ?_, ?_⟩
    · rw [framesOf_append, List.length_append, sl, ihl]
      omega
    · intro f hf
      rw [framesOf_append] at hf
      rcases List.mem_append.mp hf with h | h
      · exact sf f h
      · exact ihf f h
    · intro x hx
      rcases ihs x hx with h | h
      · rcases ss x h with h2 | h2
        · exact Or.inl h2
        · refine Or.inr ((contains_true_iff _ _).mpr ?_)
          have hm := (contains_true_iff _ _).mp h2
          simp only [List.map_cons, List.flatten_cons, List.map_append,
            List.mem_append]
          exact Or.inl hm
      · refine Or.inr ((contains_true_iff _ _).mpr ?_)
        have hm := (contains_true_iff _ _).mp h
        simp only [List.map_cons, List.flatten_cons, List.map_append,
          List.mem_append]
        exact Or.inr hm

theorem runSourceAlbums_count (env : StreamEnv) (source : RecommendationSource)
    (hc : env.cancelAt = none) (he : ∀ n, env.enqueueOk n = true) :
    ∀ (albums : List SpotifyAlbum) (st : StreamState),
      st.aborted = false → st.totalSent ≤ maxAlbums →
      (albums.map SpotifyAlbum.id).Nodup →
      (∀ a ∈ albums, a.id ∉ st.seenAlbumIds) →
      (runSourceAlbums env source st albums).1.totalSent =
        min maxAlbums (st.totalSent + albums.countP (eligibleAvailable env)) := by
  intro albums
  induction albums with
  | nil =>
    intro st ha hle hnd hs
    simp only [runSourceAlbums, List.countP_nil]
    omega
  | cons a rest ih =>
    intro st ha hle hnd hs
    rw [List.map_cons, List.nodup_cons] at hnd
    by_cases hcap : maxAlbums ≤ st.totalSent
    · have hR : runSourceAlbums env source st (a :: rest) = (st, []) := by
        simp [runSourceAlbums, hcap]
      rw [hR]
      dsimp only
      have : st.totalSent = maxAlbums := by omega
      omega
    · obtain ⟨hPa, hPt, hPfl, hPfa, hPseen, hPsent, hPsf, hPst⟩ :=
        processAlbum_noabort env st a source hc he ha
      rcases hps : processAlbum env st a source with ⟨sent, stP, ev⟩
      rw [hps] at hPa hPt hPfl hPfa hPseen hPsent hPsf hPst
      simp only at hPa hPt hPfl hPfa hPseen hPsent hPsf hPst
      have hcf : st.seenAlbumIds.contains a.id = false :=
        contains_false_of_not_mem _ _ (hs a (List.mem_cons_self a rest))
      have hsent := hPsent hcf
      rw [List.countP_cons]
      cases sent with
      | true =>
        have helig : eligibleAvailable env a = true := hsent.symm
        have hseq : stP.seenAlbumIds = a.id :: st.seenAlbumIds := hPst rfl
        have hst2le : ({ stP with totalSent := stP.totalSent + 1 } :
            StreamState).totalSent ≤ maxAlbums := by
          simp only [hPt]
          omega
        have hs2 : ∀ b ∈ rest, b.id ∉
            ({ stP with totalSent := stP.totalSent + 1 } :
              StreamState).seenAlbumIds := by
          intro b hb
          show b.id ∉ stP.seenAlbumIds
          rw [hseq]
          intro hmem
          rcases List.mem_cons.mp hmem with h | h
          · exact hnd.1 (h ▸ List.mem_map_of_mem SpotifyAlbum.id hb)
          · exact hs b (List.mem_cons_of_mem a hb) h
        have hrec := ih { stP with totalSent := stP.totalSent + 1 }
          hPa hst2le hnd.2 hs2
        have h2t : ({ stP with totalSent := stP.totalSent + 1 } :
            StreamState).totalSent = st.totalSent + 1 := by
          simp only [hPt]
        rw [h2t] at hrec
        have hR : runSourceAlbums env source st (a :: rest) =
            ((runSourceAlbums env source
                { stP with totalSent := stP.totalSent + 1 } rest).1,
             ev ++ (runSourceAlbums env source
                { stP with totalSent := stP.totalSent + 1 } rest).2) := by
          simp [runSourceAlbums, ha, hcap, hps]
        rw [hR]
        dsimp only
        rw [hrec, helig]
        simp only [if_true]
        omega
      | false =>
        have helig : eligibleAvailable env a = false := hsent.symm
        have hseq : stP.seenAlbumIds = st.seenAlbumIds := hPsf rfl
        have hs2 : ∀ b ∈ rest, b.id ∉ stP.seenAlbumIds := by
          intro b hb
          rw [hseq]
          exact hs b (List.mem_cons_of_mem a hb)
        have hrec := ih stP hPa (by omega) hnd.2 hs2
        rw [hPt] at hrec
        have hR : runSourceAlbums env source st (a :: rest) =
            ((runSourceAlbums env source stP rest).1,
             ev ++ (runSourceAlbums env source stP rest).2) := by
          simp [runSourceAlbums, ha, hcap, hps]
        rw [hR]
        dsimp only
        rw [hrec, helig]
        simp only [Bool.false_eq_true, if_false]
        omega

theorem runPrimary_count (env : StreamEnv)
    (hc : env.cancelAt = none) (he : ∀ n, env.enqueueOk n = true) :
    ∀ (sources : List (List SpotifyAlbum × RecommendationSource)) (st : StreamState),
      st.aborted = false → st.totalSent ≤ maxAlbums →
      (((sources.map Prod.fst).flatten).map SpotifyAlbum.id).Nodup →
      (∀ a ∈ (sources.map Prod.fst).flatten, a.id ∉ st.seenAlbumIds) →
      (runPrimary env st sources).1.totalSent =
        min maxAlbums (st.totalSent +
          ((sources.map Prod.fst).flatten).countP (eligibleAvailable env)) := by
  intro sources
  induction sources with
  | nil =>
    intro st ha hle hnd hs
    simp only [runPrimary, List.map_nil, List.flatten_nil, List.countP_nil]
    omega
  | cons s rest ih =>
    obtain ⟨albums, source⟩ := s
    intro st ha hle hnd hs
    simp only [List.map_cons, List.flatten_cons, List.map_append,
      List.nodup_append] at hnd
    simp only [List.map_cons, List.flatten_cons, List.mem_append] at hs
    obtain ⟨sa, sm, sc, sl, sf, ss⟩ :=
      runSourceAlbums_spec env source hc he albums st ha hle
    have hcountA := runSourceAlbums_count env source hc he albums st ha hle
      hnd.1 (fun a hax => hs a (Or.inl hax))
    have hs2 : ∀ b ∈ (rest.map Prod.fst).flatten,
        b.id ∉ (runSourceAlbums env source st albums).1.seenAlbumIds := by
      intro b hb hmem
      rcases ss b.id ((contains_true_iff _ _).mpr hmem) with h | h
      · exact hs b (Or.inr hb) ((contains_true_iff _ _).mp h)
      · exact hnd.2.2 ((contains_true_iff _ _).mp h)
          (List.mem_map_of_mem SpotifyAlbum.id hb)
    have hrec := ih (runSourceAlbums env source st albums).1 sa sc hnd.2.1 hs2
    rw [hcountA] at hrec
    have hR : runPrimary env st ((albums, source) :: rest) =
        ((runPrimary env (runSourceAlbums env source st albums).1 rest).1,
         (runSourceAlbums env source st albums).2 ++
           (runPrimary env (runSourceAlbums env source st albums).1 rest).2) := by
      simp [runPrimary, ha]
    rw [hR]
    dsimp only
    rw [hrec]
    simp only [List.map_cons, List.flatten_cons, List.countP_append]
    omega

theorem runCollectionTracks_spec (env : StreamEnv)
    (hc : env.cancelAt = none) (he : ∀ n, env.enqueueOk n = true) :
    ∀ (tracks : List (Option SpotifyAlbum)) (st : StreamState),
      st.aborted = false → st.totalSent ≤ maxAlbums →
      (runCollectionTracks env st tracks).1.aborted = false ∧
      st.totalSent ≤ (runCollectionTracks env st tracks).1.totalSent ∧
      (runCollectionTracks env st tracks).1.totalSent ≤ maxAlbums ∧
      (framesOf (runCollectionTracks env st tracks).2).length =
        (runCollectionTracks env st tracks).1.totalSent - st.totalSent ∧
      (∀ f ∈ framesOf (runCollectionTracks env st tracks).2,
        isAlbumFrame f = true) := by
  intro tracks
  induction tracks with
  | nil =>
    intro st ha hle
    exact ⟨ha, le_rfl, hle, by simp [runCollectionTracks, framesOf],
      by simp [runCollectionTracks, framesOf]⟩
  | cons t rest ih =>
    intro st ha hle
    by_cases hcap : maxAlbums ≤ st.totalSent
    · have hR : runCollectionTracks env st (t :: rest) = (st, []) := by
        simp [runCollectionTracks, hcap]
      rw [hR]
      exact ⟨ha, le_rfl, hle, by simp [framesOf], by simp [framesOf]⟩
    · cases t with
      | none =>
        have hR : runCollectionTracks env st (none :: rest) =
            runCollectionTracks env st rest := by
          simp [runCollectionTracks, ha, hcap]
        rw [hR]
        exact ih st ha hle
      | some album =>
        obtain ⟨hPa, hPt, hPfl, hPfa, hPseen, hPsent, hPsf, hPst⟩ :=
          processAlbum_noabort env st album .collection_based hc he ha
        rcases hps : processAlbum env st album .collection_based with ⟨sent, stP, ev⟩
        rw [hps] at hPa hPt hPfl hPfa hPseen hPsent hPsf hPst
        simp only at hPa hPt hPfl hPfa hPseen hPsent hPsf hPst
        cases sent with
        | true =>
          have hst2le : ({ stP with totalSent := stP.totalSent + 1 } :
              StreamState).totalSent ≤ maxAlbums := by
            simp only [hPt]
            omega
          obtain ⟨iha, ihm, ihc, ihl, ihf⟩ :=
            ih { stP with totalSent := stP.totalSent + 1 } hPa hst2le
          have h2t : ({ stP with totalSent := stP.totalSent + 1 } :
              StreamState).totalSent = st.totalSent + 1 := by
            simp only [hPt]
          rw [h2t] at ihm ihl
          have hR : runCollectionTracks env st (some album :: rest) =
              ((runCollectionTracks env
                  { stP with totalSent := stP.totalSent + 1 } rest).1,
               ev ++ (runCollectionTracks env
                  { stP with totalSent := stP.totalSent + 1 } rest).2) := by
            simp [runCollectionTracks, ha, hcap, hps]
          rw [hR]
          dsimp only
          have hevl : (framesOf ev).length = 1 := by simpa using hPfl
          refine ⟨iha, by omega, ihc, ?_, ?_⟩
          · rw [framesOf_append, List.length_append, ihl, hevl]
            omega
          · intro f hf
            rw [framesOf_append] at hf
            rcases List.mem_append.mp hf with h | h
            · exact hPfa f h
            · exact ihf f h
        | false =>
          obtain ⟨iha, ihm, ihc, ihl, ihf⟩ := ih stP hPa (by omega)
          have hR : runCollectionTracks env st (some album :: rest) =
              ((runCollectionTracks env stP rest).1,
               ev ++ (runCollectionTracks env stP rest).2) := by
            simp [runCollectionTracks, ha, hcap, hps]
          rw [hR]
          dsimp only
          have hevl : (framesOf ev).length = 0 := by simpa using hPfl
          refine ⟨iha, by omega, ihc, ?_, ?_⟩
          · rw [framesOf_append, List.length_append, ihl, hevl]
            omega
          · intro f hf
            rw [framesOf_append] at hf
            rcases List.mem_append.mp hf with h | h
            · exact hPfa f h
            · exact ihf f h

theorem runCollection_spec (env : StreamEnv) (st : StreamState)
    (hc : env.cancelAt = none) (he : ∀ n, env.enqueueOk n = true)
    (ha : st.aborted = false) (hle : st.totalSent ≤ maxAlbums) :
    (runCollection env st).1.aborted = false ∧
    st.totalSent ≤ (runCollection env st).1.totalSent ∧
    (runCollection env st).1.totalSent ≤ maxAlbums ∧
    (framesOf (runCollection env st).2).length =
      (runCollection env st).1.totalSent - st.totalSent ∧
    (∀ f ∈ framesOf (runCollection env st).2, isAlbumFrame f = true) := by
  have h1 : tick env (tick env st) =
      { st with aborted := false, clock := st.clock + 2 } := by
    rw [tick_noabort env st hc ha]
    rw [tick_noabort env
      ({ st with aborted := false, clock := st.clock + 1 }) hc rfl]
  have h2 : tick env
        ({ st with aborted := false, clock := st.clock + 2 } : StreamState) =
      { st with aborted := false, clock := st.clock + 3 } := by
    rw [tick_noabort env
      ({ st with aborted := false, clock := st.clock + 2 }) hc rfl]
  by_cases hart : env.collectionArtists.isEmpty = true
  · have hR : runCollection env st =
        ({ st with aborted := false, clock := st.clock + 2 }, []) := by
      simp [runCollection, h1, hart]
    rw [hR]
    exact ⟨rfl, le_rfl, hle, by simp [framesOf], by simp [framesOf]⟩
  · have hartf : env.collectionArtists.isEmpty = false := by
      simpa using hart
    by_cases hcap2 : st.totalSent < maxAlbums
    · cases hrec : env.recommendations with
      | error e =>
        have hR : runCollection env st =
            ({ st with aborted := false, clock := st.clock + 3 }, []) := by
          simp [runCollection, h1, h2, ha, hartf, hcap2, hrec]
        rw [hR]
        exact ⟨rfl, le_rfl, hle, by simp [framesOf], by simp [framesOf]⟩
      | ok tracks =>
        have hR : runCollection env st =
            runCollectionTracks env
              { st with aborted := false, clock := st.clock + 3 } tracks := by
          simp [runCollection, h1, h2, ha, hartf, hcap2, hrec]
        rw [hR]
        exact runCollectionTracks_spec env hc he tracks
          ({ st with aborted := false, clock := st.clock + 3 } : StreamState)
          rfl hle
    · have hR : runCollection env st =
          ({ st with aborted := false, clock := st.clock + 2 }, []) := by
        simp [runCollection, h1, hcap2]
      rw [hR]
      exact ⟨rfl, le_rfl, hle, by simp [framesOf], by simp [framesOf]⟩

theorem runClassicsList_spec (env : StreamEnv)
    (hc : env.cancelAt = none) (he : ∀ n, env.enqueueOk n = true) :
    ∀ (cs : List DiscogsSearchResult) (st : StreamState),
      st.aborted = false → st.totalSent ≤ maxAlbums →
      (runClassicsList env st cs).1.aborted = false ∧
      st.totalSent ≤ (runClassicsList env st cs).1.totalSent ∧
      (runClassicsList env st cs).1.totalSent ≤ maxAlbums ∧
      (framesOf (runClassicsList env st cs).2).length =
        (runClassicsList env st cs).1.totalSent - st.totalSent ∧
      (∀ f ∈ framesOf (runClassicsList env st cs).2, isAlbumFrame f = true) := by
  intro cs
  induction cs with
  | nil =>
    intro st ha hle
    exact ⟨ha, le_rfl, hle, by simp [runClassicsList, framesOf],
      by simp [runClassicsList, framesOf]⟩
  | cons classic rest ih =>
    intro st ha hle
    by_cases hcap : maxAlbums ≤ st.totalSent
    · have hR : runClassicsList env st (classic :: rest) = (st, []) := by
        simp [runClassicsList, hcap]
      rw [hR]
      exact ⟨ha, le_rfl, hle, by simp [framesOf], by simp [framesOf]⟩
    · by_cases hparts : 2 ≤ (classic.title.splitOn " - ").length
      · by_cases hexa : classicFakeId classic ∈ env.actionedAlbumIds
        · have hR : runClassicsList env st (classic :: rest) =
              runClassicsList env st rest := by
            simp [runClassicsList, ha, hcap, hparts, hexa]
          rw [hR]
          exact ih st ha hle
        · by_cases hexs : classicFakeId classic ∈ st.seenAlbumIds
          · have hR : runClassicsList env st (classic :: rest) =
                runClassicsList env st rest := by
              simp [runClassicsList, ha, hcap, hparts, hexa, hexs]
            rw [hR]
            exact ih st ha hle
          · have hst2le : ({ st with
                seenAlbumIds := classicFakeId classic :: st.seenAlbumIds,
                enq := st.enq + 1,
                totalSent := st.totalSent + 1 } : StreamState).totalSent ≤
                maxAlbums := by
              dsimp only
              omega
            obtain ⟨iha, ihm, ihc, ihl, ihf⟩ :=
              ih { st with
                seenAlbumIds := classicFakeId classic :: st.seenAlbumIds,
                enq := st.enq + 1,
                totalSent := st.totalSent + 1 } ha hst2le
            have hR : runClassicsList env st (classic :: rest) =
                ((runClassicsList env { st with
                    seenAlbumIds := classicFakeId classic :: st.seenAlbumIds,
                    enq := st.enq + 1,
                    totalSent := st.totalSent + 1 } rest).1,
                 .frame (.album (classicStreamedOf classic)) ::
                   (runClassicsList env { st with
                    seenAlbumIds := classicFakeId classic :: st.seenAlbumIds,
                    enq := st.enq + 1,
                    totalSent := st.totalSent + 1 } rest).2) := by
              simp [runClassicsList, ha, hcap, hparts, hexa, hexs,
                sendAlbum, safeEnqueue, he]
            rw [hR]
            dsimp only at ihm ihl ⊢
            refine ⟨iha, by omega, ihc, ?_, ?_⟩
            · have hfr : framesOf (.frame (.album (classicStreamedOf classic)) ::
                  (runClassicsList env { st with
                    seenAlbumIds := classicFakeId classic :: st.seenAlbumIds,
                    enq := st.enq + 1,
                    totalSent := st.totalSent + 1 } rest).2) =
                  .album (classicStreamedOf classic) ::
                    framesOf (runClassicsList env { st with
                      seenAlbumIds := classicFakeId classic :: st.seenAlbumIds,
                      enq := st.enq + 1,
                      totalSent := st.totalSent + 1 } rest).2 := by
                simp [framesOf]
              rw [hfr, List.length_cons, ihl]
              omega
            · intro f hf
              have hfr : framesOf (.frame (.album (classicStreamedOf classic)) ::
                  (runClassicsList env { st with
                    seenAlbumIds := classicFakeId classic :: st.seenAlbumIds,
                    enq := st.enq + 1,
                    totalSent := st.totalSent + 1 } rest).2) =
                  .album (classicStreamedOf classic) ::
                    framesOf (runClassicsList env { st with
                      seenAlbumIds := classicFakeId classic :: st.seenAlbumIds,
                      enq := st.enq + 1,
                      totalSent := st.totalSent + 1 } rest).2 := by
                simp [framesOf]
              rw [hfr] at hf
              rcases List.mem_cons.mp hf with h | h
              · rw [h]
                rfl
              · exact ihf f h
      · have hR : runClassicsList env st (classic :: rest) =
            runClassicsList env st rest := by
          simp [runClassicsList, ha, hcap, hparts]
        rw [hR]
        exact ih st ha hle

theorem runClassics_spec (env : StreamEnv) (st : StreamState)
    (hc : env.cancelAt = none) (he : ∀ n, env.enqueueOk n = true)
    (ha : st.aborted = false) (hle : st.totalSent ≤ maxAlbums) :
    (runClassics env st).1.aborted = false ∧
    st.totalSent ≤ (runClassics env st).1.totalSent ∧
    (runClassics env st).1.totalSent ≤ maxAlbums ∧
    (framesOf (runClassics env st).2).length =
      (runClassics env st).1.totalSent - st.totalSent ∧
    (∀ f ∈ framesOf (runClassics env st).2, isAlbumFrame f = true) := by
  have h1 : tick env st =
      { st with aborted := false, clock := st.clock + 1 } :=
    tick_noabort env st hc ha
  by_cases hcap2 : st.totalSent < maxAlbums
  · cases hcl : env.classics with
    | error e =>
      have hR : runClassics env st =
          ({ st with aborted := false, clock := st.clock + 1 }, []) := by
        simp [runClassics, h1, ha, hcap2, hcl]
      rw [hR]
      exact ⟨rfl, le_rfl, hle, by simp [framesOf], by simp [framesOf]⟩
    | ok cs =>
      have hR : runClassics env st =
          runClassicsList env
            { st with aborted := false, clock := st.clock + 1 } cs := by
        simp [runClassics, h1, ha, hcap2, hcl]
      rw [hR]
      exact runClassicsList_spec env hc he cs
        ({ st with aborted := false, clock := st.clock + 1 } : StreamState)
        rfl hle
  · have hR : runClassics env st = (st, []) := by
      simp [runClassics, hcap2]
    rw [hR]
    exact ⟨ha, le_rfl, hle, by simp [framesOf], by simp [framesOf]⟩

theorem sendDone_noabort (env : StreamEnv) (st : StreamState)
    (he : ∀ n, env.enqueueOk n = true) (ha : st.aborted = false) :
    sendDone env st = ({ st with enq := st.enq + 1 }, [.frame .done]) := by
  simp [sendDone, safeEnqueue, ha, he]

theorem pipeline_frames (env : StreamEnv) (st : StreamState)
    (he : ∀ n, env.enqueueOk n = true)
    (hka : (runClassics env
        (runCollection env (runPrimary env st env.sources).1).1).1.aborted =
        false) :
    framesOf (pipelineFrom env st).2 =
      framesOf (runPrimary env st env.sources).2 ++
      framesOf (runCollection env (runPrimary env st env.sources).1).2 ++
      framesOf (runClassics env
        (runCollection env (runPrimary env st env.sources).1).1).2 ++
      [StreamFrame.done] := by
  unfold pipelineFrom
  dsimp only
  rw [sendDone_noabort env _ he hka]
  dsimp only
  rw [framesOf_append, framesOf_append, framesOf_append]
  simp [framesOf]

theorem pipeline_cap (env : StreamEnv) (st : StreamState)
    (hc : env.cancelAt = none) (he : ∀ n, env.enqueueOk n = true)
    (ha : st.aborted = false) (ht : st.totalSent = 0)
    (hs : st.seenAlbumIds = []) :
    (∃ rs, framesOf (pipelineFrom env st).2 = rs ++ [.done] ∧
      (∀ f ∈ rs, isAlbumFrame f = true) ∧ rs.length ≤ maxAlbums) ∧
    (((primaryAlbums env).map SpotifyAlbum.id).Nodup →
      maxAlbums < (primaryAlbums env).countP (eligibleAvailable env) →
      ∃ rs, framesOf (pipelineFrom env st).2 = rs ++ [.done] ∧
        (∀ f ∈ rs, isAlbumFrame f = true) ∧ rs.length = maxAlbums) := by
  obtain ⟨pa, pm, pc, pl, pf, ps⟩ :=
    runPrimary_spec env hc he env.sources st ha (by omega)
  obtain ⟨ca, cm, cc, cl, cf⟩ := runCollection_spec env _ hc he pa pc
  obtain ⟨ka, km, kc, kl, kf⟩ := runClassics_spec env _ hc he ca cc
  have hframes := pipeline_frames env st he ka
  rw [ht] at pm pl
  constructor
  · refine ⟨framesOf (runPrimary env st env.sources).2 ++
      framesOf (runCollection env (runPrimary env st env.sources).1).2 ++
      framesOf (runClassics env
        (runCollection env (runPrimary env st env.sources).1).1).2,
      ?_, ?_, ?_⟩
    · rw [hframes]
    · intro f hf
      rcases List.mem_append.mp hf with h | h
      · rcases List.mem_append.mp h with h2 | h2
        · exact pf f h2
        · exact cf f h2
      · exact kf f h
    · simp only [List.length_append]
      rw [pl, cl, kl]
      omega
  · intro hnd hcount
    have hseen0 : ∀ a ∈ (env.sources.map Prod.fst).flatten,
        a.id ∉ st.seenAlbumIds := by
      intro a _
      rw [hs]
      exact List.not_mem_nil _
    have hcnt := runPrimary_count env hc he env.sources st ha (by omega) hnd hseen0
    rw [ht] at hcnt
    have hcount2 : maxAlbums <
        ((env.sources.map Prod.fst).flatten).countP (eligibleAvailable env) :=
      hcount
    have hP1 : (runPrimary env st env.sources).1.totalSent = maxAlbums := by
      rw [hcnt]
      omega
    have hC1 : (runCollection env
        (runPrimary env st env.sources).1).1.totalSent = maxAlbums := by
      omega
    have hK1 : (runClassics env (runCollection env
        (runPrimary env st env.sources).1).1).1.totalSent = maxAlbums := by
      omega
    have hB : framesOf (runCollection env
        (runPrimary env st env.sources).1).2 = [] :=
      List.length_eq_zero.mp (by rw [cl]; omega)
    have hK : framesOf (runClassics env (runCollection env
        (runPrimary env st env.sources).1).1).2 = [] :=
      List.length_eq_zero.mp (by rw [kl]; omega)
    refine ⟨framesOf (runPrimary env st env.sources).2, ?_,
      fun f hf => pf f hf, ?_⟩
    · rw [hframes, hB, hK]
      simp
    · rw [pl, hP1]
      omega

/-- Claim C1: in every run of the coordinator in which the caller never
disconnects and the channel accepts every frame (the model of a run
that reaches DONE without fatal error), the emitted frames are at most
40 StreamedResult frames followed by exactly one terminal frame — also
when there are zero candidates — and when the four primary source
batches carry (pairwise-distinct) more than 40 candidates that pass the
filter and resolve as available, exactly 40 StreamedResult frames are
emitted before the terminal frame. -/
theorem stream_cap_and_done :
    ∀ env : StreamEnv, env.cancelAt = none → (∀ n, env.enqueueOk n = true) →
      (∃ rs, framesOf (streamRun env).2 = rs ++ [.done] ∧
        (∀ f ∈ rs, isAlbumFrame f = true) ∧ rs.length ≤ maxAlbums) ∧
      (((primaryAlbums env).map SpotifyAlbum.id).Nodup →
        maxAlbums < (primaryAlbums env).countP (eligibleAvailable env) →
        ∃ rs, framesOf (streamRun env).2 = rs ++ [.done] ∧
          (∀ f ∈ rs, isAlbumFrame f = true) ∧ rs.length = maxAlbums) := by
  intro env hc he
  have ha0 : (tick env (tick env (tick env initialStreamState))).aborted = false := by
    simp [tick, cancelFired, hc, initialStreamState]
  have ht0 : (tick env (tick env (tick env initialStreamState))).totalSent = 0 := by
    simp [tick, initialStreamState]
  have hs0 : (tick env (tick env (tick env initialStreamState))).seenAlbumIds = [] := by
    simp [tick, initialStreamState]
  exact pipeline_cap env (tick env (tick env (tick env initialStreamState)))
    hc he ha0 ht0 hs0

theorem stream_cap_and_done_witness :
    envZero.cancelAt = none ∧ (∀ n, envZero.enqueueOk n = true) ∧
    ((∃ rs, framesOf (streamRun envZero).2 = rs ++ [.done] ∧
        (∀ f ∈ rs, isAlbumFrame f = true) ∧ rs.length ≤ maxAlbums) ∧
      (((primaryAlbums envZero).map SpotifyAlbum.id).Nodup →
        maxAlbums < (primaryAlbums envZero).countP (eligibleAvailable envZero) →
        ∃ rs, framesOf (streamRun envZero).2 = rs ++ [.done] ∧
          (∀ f ∈ rs, isAlbumFrame f = true) ∧ rs.length = maxAlbums)) :=
  ⟨rfl, fun _ => rfl, stream_cap_and_done envZero rfl (fun _ => rfl)⟩

end VinylDestination
